import Mathlib

/-!
Verification of the auto-fix pipeline (`src/scanner.py`, `src/analyzer.py`,
`src/fixer.py`, `src/utils.py`, `src/agent.py`) of the code-validator agent.

Python strings are embedded as lists of characters (`PStr`); every Python
string primitive the pipeline uses (`in`, `strip`, `lower`, `replace`,
`split`, `join`, `find`, slicing) is given its own executable Lean
counterpart, faithful to CPython semantics on the inputs the pipeline
feeds it.  File-system reads/writes and the `ast.parse` call are external
effects; they enter the embedding as explicit parameters (`Except` results
and a `ParseResult`), so each embedded function is a pure function of the
code's actual inputs.
-/

/-- A Python string, embedded as its list of characters. -/
abbrev PStr := List Char

/-- Character list of a Lean string literal (used to transcribe the Python
    string literals appearing in the source). -/
def pstr (s : String) : PStr := s.data

/-- Python `pat in s`: substring containment, by scanning every suffix. -/
def pyIn (pat : PStr) : PStr → Bool
  | [] => pat.isEmpty
  | c :: cs => pat.isPrefixOf (c :: cs) || pyIn pat cs

/-- Python whitespace class (the characters `str.strip` and the regex
    whitespace class treat as space, restricted to ASCII, which is all the
    pipeline's rules ever produce). -/
def isPySpace (c : Char) : Bool :=
  c = ' ' || c = '\t' || c = '\n' || c = '\r' || c = '\x0b' || c = '\x0c'

/-- Python `s.lstrip()`. -/
def pyLstrip (s : PStr) : PStr := s.dropWhile isPySpace

/-- Python `s.rstrip()`. -/
def pyRstrip (s : PStr) : PStr := (s.reverse.dropWhile isPySpace).reverse

/-- Python `s.strip()`. -/
def pyStrip (s : PStr) : PStr := pyRstrip (pyLstrip s)

/-- Python `s.lower()` (ASCII case folding, which agrees with CPython on the
    ASCII-only strings the rules inspect). -/
def pyLower (s : PStr) : PStr := s.map Char.toLower

/-- Python `s.startswith(p)`. -/
def pyStartswith (p s : PStr) : Bool := p.isPrefixOf s

/-- Python `s.endswith(p)`. -/
def pyEndswith (p s : PStr) : Bool := p.isSuffixOf s

/-- Python `s.split(sep)` for a single-character separator `'\n'`:
    splits on every newline and keeps empty pieces, so the result is never
    empty.  (`"".split('\n') == ['']`.) -/
def splitNl : PStr → List PStr
  | [] => [[]]
  | c :: cs =>
    if c = '\n' then [] :: splitNl cs
    else
      match splitNl cs with
      | [] => [[c]]
      | h :: t => (c :: h) :: t

/-- Python `'\n'.join(lines)`. -/
def joinNl (lines : List PStr) : PStr :=
  match lines with
  | [] => []
  | l :: ls => l ++ (ls.flatMap (fun l' => '\n' :: l'))

/-- `validate_fix` (`src/utils.py` lines 41-51).  The source compares
    `len(fixed) < len(original) * 0.2`; for every length below `2 ^ 53` the
    IEEE-754 double `len(original) * 0.2` rounds to within a half-ulp of the
    exact value `len(original) / 5`, so the integer-against-float comparison
    is exactly the rational comparison `5 * len(fixed) < len(original)`,
    which is how it is embedded here. -/
def validate_fix (original_content fixed_content : PStr) : Bool :=
  -- `if not fixed_content or not fixed_content.strip(): return False`
  if fixed_content.isEmpty || (pyStrip fixed_content).isEmpty then false
  -- `if len(fixed_content) < len(original_content) * 0.2: return False`
  else if 5 * fixed_content.length < original_content.length then false
  else true

/-- Helper for `pyFind`: index of the first position at which `pat` is a
    prefix of the remaining suffix. -/
def pyFindAux (pat : PStr) : PStr → Nat → Option Nat
  | [], i => if pat.isEmpty then some i else none
  | c :: cs, i => if pat.isPrefixOf (c :: cs) then some i else pyFindAux pat cs (i + 1)

/-- Python `s.find(pat)`: index of the first occurrence, `-1` if absent. -/
def pyFind (s pat : PStr) : Int :=
  match pyFindAux pat s 0 with
  | some n => (n : Int)
  | none => -1

/-- Normalization of one Python slice index: negative indices count from
    the end, and both ends clamp into `[0, len]`. -/
def pySliceIdx (len : Nat) (i : Int) : Nat :=
  if i < 0 then ((len : Int) + i).toNat else min i.toNat len

/-- Python `s[a:b]`. -/
def pySlice (s : PStr) (a b : Int) : PStr :=
  let lo := pySliceIdx s.length a
  let hi := pySliceIdx s.length b
  (s.drop lo).take (hi - lo)

/-- Python `line.replace(' ', '')`: removing every space character is the
    same as filtering them out. -/
def removeSpaces (s : PStr) : PStr := s.filter (fun c => c ≠ ' ')

/-- The regex word class (ASCII letters, digits and the underscore, which
    covers every string the rules scan). -/
def isWordChar (c : Char) : Bool := c.isAlphanum || c = '_'

/-- Consume one-or-more characters satisfying `p` (the `+` quantifier):
    `none` when the first character does not match. -/
def dropWhile1 (p : Char → Bool) : PStr → Option PStr
  | c :: cs => if p c then some (cs.dropWhile p) else none
  | [] => none

/-- Match, at the current position, the regex the analyzer uses for
    assignment-in-condition: literal `if`, one-or-more whitespace,
    one-or-more word characters, optional whitespace, an equals sign, then
    one character that is not another equals sign.  The whitespace and
    word classes are disjoint and an equals sign is in neither, so the
    greedy match below is equivalent to the backtracking one. -/
def matchIfAssignHere (s : PStr) : Bool :=
  match s with
  | 'i' :: 'f' :: rest =>
    match dropWhile1 isPySpace rest with
    | none => false
    | some r1 =>
      match dropWhile1 isWordChar r1 with
      | none => false
      | some r2 =>
        match r2.dropWhile isPySpace with
        | '=' :: d :: _ => d ≠ '='
        | _ => false
  | _ => false

/-- `re.search` for the assignment-in-condition pattern: try every
    position whose left neighbour is not a word character (the leading
    word boundary). -/
def searchIfAssign : PStr → Bool → Bool
  | [], _ => false
  | c :: cs, prevWord =>
    (!prevWord && matchIfAssignHere (c :: cs)) || searchIfAssign cs (isWordChar c)

/-- The analyzer's assignment-in-condition regex test on a whole line. -/
def reIfAssign (line : PStr) : Bool := searchIfAssign line false

/-- An ASCII hexadecimal digit. -/
def isHexDigit (c : Char) : Bool :=
  c.isDigit || (('a' : Char) ≤ c && c ≤ 'f') || (('A' : Char) ≤ c && c ≤ 'F')

/-- Match, at the current position, the stylesheet analyzer's three-digit
    hex-colour regex: a hash, three hex digits, then a word boundary. -/
def matchHex3Here : PStr → Bool
  | '#' :: a :: b :: c :: rest =>
    isHexDigit a && isHexDigit b && isHexDigit c &&
      (match rest with
       | [] => true
       | d :: _ => !isWordChar d)
  | _ => false

/-- `re.search` for the three-digit hex-colour pattern. -/
def reHex3 : PStr → Bool
  | [] => false
  | c :: cs => matchHex3Here (c :: cs) || reHex3 cs

/-- An issue record as produced by `Analyzer` and consumed by `Fixer`:
    the Python dicts `{'type': ..., 'message': ..., 'line': ...}`.
    Every line number the source produces is a nonnegative integer
    (`0` marks a file-level issue), so `line` is a `Nat`. -/
structure Issue where
  type : PStr
  message : PStr
  line : Nat
deriving DecidableEq

/-- A comparison operator of a Python `Compare` node (`ast.Eq`, `ast.Is`,
    and so on; `other` stands for every operator the checks ignore). -/
inductive CmpOp where
  | eqOp
  | notEqOp
  | isOp
  | isNotOp
  | other
deriving DecidableEq

/-- The value of an `ast.Constant` comparator, or `nonConst` when the
    comparator is not a constant node at all. -/
inductive PyConst where
  | noneConst
  | boolConst (b : Bool)
  | intConst (n : Int)
  | strConst (s : PStr)
  | nonConst
deriving DecidableEq

/-- The slice of the Python syntax tree `Analyzer._analyze_ast` inspects:
    `Pass` statements, function definitions with their bodies, `Try`
    statements with the (rendered) exception type and line of each handler,
    `Compare` nodes with the zipped `(op, comparator)` pairs, and a generic
    node for everything else.  Each constructor carries its `lineno` and
    its child nodes (for `Try`, the handler bodies are included among the
    children; for `Compare`, the operand expressions are). -/
inductive PyNode where
  | passStmt (lineno : Nat)
  | functionDef (name : PStr) (lineno : Nat) (body : List PyNode)
  | tryStmt (lineno : Nat) (handlers : List (Option PStr × Nat)) (children : List PyNode)
  | compare (lineno : Nat) (opsComps : List (CmpOp × PyConst)) (children : List PyNode)
  | otherNode (lineno : Nat) (children : List PyNode)

/-- The child list `ast.iter_child_nodes` would feed the walk. -/
def pyChildren : PyNode → List PyNode
  | .passStmt _ => []
  | .functionDef _ _ b => b
  | .tryStmt _ _ cs => cs
  | .compare _ _ cs => cs
  | .otherNode _ cs => cs

mutual

/-- Number of nodes of a tree (used to bound the walk). -/
def nodeSize : PyNode → Nat
  | .passStmt _ => 1
  | .functionDef _ _ b => 1 + nodesSize b
  | .tryStmt _ _ cs => 1 + nodesSize cs
  | .compare _ _ cs => 1 + nodesSize cs
  | .otherNode _ cs => 1 + nodesSize cs

/-- Number of nodes of a forest. -/
def nodesSize : List PyNode → Nat
  | [] => 0
  | n :: ns => nodeSize n + nodesSize ns

end

/-- Level-by-level breadth-first traversal.  The fuel argument only pays
    for termination: a tree of `n` nodes has at most `n` nonempty levels,
    so `nodeSize root` steps always reach the empty level and the fuel
    never runs out on `walk`'s call below. -/
def walkAux : Nat → List PyNode → List PyNode
  | 0, _ => []
  | _, [] => []
  | fuel + 1, q => q ++ walkAux fuel (q.flatMap pyChildren)

/-- `ast.walk(tree)`: all nodes in breadth-first order. -/
def walk (root : PyNode) : List PyNode := walkAux (nodeSize root) [root]

/-- `len(node.body) == 1 and isinstance(node.body[0], ast.Pass)`. -/
def isPassOnly : List PyNode → Bool
  | [.passStmt _] => true
  | _ => false

/-- The duplicate-exception-handler scan of `_analyze_ast`: walk the
    handlers in order, reporting a handler whose rendered type name was
    already seen, and recording every named type (duplicates included,
    as the source's `exception_types.append` does). -/
def dupHandlerIssues : List (Option PStr × Nat) → List PStr → List Issue
  | [], _ => []
  | (none, _) :: hs, seen => dupHandlerIssues hs seen
  | (some exc, ln) :: hs, seen =>
    (if exc ∈ seen then
      [⟨pstr "DuplicateException", pstr "Duplicate exception handler: " ++ exc, ln⟩]
     else []) ++ dupHandlerIssues hs (seen ++ [exc])

/-- The per-node checks of `Analyzer._analyze_ast` (`src/analyzer.py`
    lines 170-210): empty functions, duplicate exception handlers, and
    equality comparisons against a boolean literal. -/
def nodeChecks : PyNode → List Issue
  | .functionDef name ln body =>
    if isPassOnly body then
      [⟨pstr "EmptyFunction", pstr "Empty function: " ++ name, ln⟩]
    else []
  | .tryStmt _ handlers _ => dupHandlerIssues handlers []
  | .compare ln opsComps _ =>
    opsComps.flatMap (fun oc =>
      match oc with
      | (CmpOp.eqOp, PyConst.boolConst b) =>
        [⟨pstr "ComparisonBug",
          pstr "Comparing with " ++ (if b then pstr "True" else pstr "False")
            ++ pstr " - use \"is\" instead", ln⟩]
      | _ => [])
  | _ => []

/-- `Analyzer._analyze_ast`: the node checks over the whole walk, in walk
    order. -/
def analyze_ast (tree : PyNode) : List Issue := (walk tree).flatMap nodeChecks

/-- The outcome of the `ast.parse(content)` call of `_analyze_python`:
    a tree, or the `IndentationError` (with its bare `msg` attribute) or
    other `SyntaxError` (with its full `str(e)` rendering) it raised,
    each with the exception's optional `lineno`.  The parse itself is the
    Python standard library, external to this code base, so its outcome is
    a parameter of the embedding. -/
inductive ParseResult where
  | ok (tree : PyNode)
  | indentationError (msg : PStr) (lineno : Option Nat)
  | synError (str_e : PStr) (lineno : Option Nat)

/-- The ordered `(condition, issue)` battery of `_analyze_python`'s
    per-line loop (`src/analyzer.py` lines 64-166), one entry per `if`
    of the source, in source order, for the `i`-th (1-based) line. -/
def pythonLineRules (content : PStr) (i : Nat) (line : PStr) : List (Bool × Issue) :=
  let stripped := pyStrip line
  let lowered := pyLower line
  let found := pyFind content line
  let clen : Int := (content.length : Int)
  [ (pyIn (pstr "eval(") line,
      ⟨pstr "SecurityIssue", pstr "Avoid using eval() - security risk", i⟩),
    (pyIn (pstr "exec(") line,
      ⟨pstr "SecurityIssue", pstr "Avoid using exec() - security risk", i⟩),
    (pyIn (pstr "pickle.loads(") line || pyIn (pstr "pickle.load(") line,
      ⟨pstr "SecurityIssue", pstr "Pickle can execute arbitrary code - use json instead", i⟩),
    (pyIn (pstr "shell=True") line,
      ⟨pstr "SecurityIssue", pstr "shell=True is a security risk - avoid if possible", i⟩),
    (pyIn (pstr "password") lowered && (pyIn (pstr "print(") line || pyIn (pstr "log") lowered),
      ⟨pstr "SecurityIssue", pstr "Potential password logging detected", i⟩),
    (pyIn (pstr "api_key") lowered && (pyIn (pstr "=") line && pyIn (pstr "\"") line),
      ⟨pstr "SecurityIssue", pstr "Hardcoded API key detected", i⟩),
    (pyIn (pstr "TODO") line || pyIn (pstr "FIXME") line || pyIn (pstr "HACK") line,
      ⟨pstr "CodeQuality", pstr "TODO/FIXME comment found - needs implementation", i⟩),
    (pyIn (pstr ".execute(") line && pyIn (pstr "f\"") line,
      ⟨pstr "SecurityIssue", pstr "SQL injection risk - use parameterized queries", i⟩),
    (pyIn (pstr ".execute(") line && pyIn (pstr "%") line && !pyIn (pstr "format") line,
      ⟨pstr "SecurityIssue", pstr "SQL injection risk - use parameterized queries", i⟩),
    (pyIn (pstr "requests.get(") line && pyIn (pstr "verify=False") line,
      ⟨pstr "SecurityIssue", pstr "SSL verification disabled - security risk", i⟩),
    (pyIn (pstr "sleep(") line && !pyStartswith (pstr "#") stripped,
      ⟨pstr "PerformanceIssue", pstr "sleep() call may block - consider async approach", i⟩),
    (pyIn (pstr "cursor.execute") line &&
        !pyIn (pstr "commit") (pySlice content (max 0 found) (min clen (found + 500))),
      ⟨pstr "DatabaseIssue", pstr "Missing commit() after execute() - transaction may not persist", i⟩),
    (!pyIn (pstr ".close()") content &&
        (pyIn (pstr "connect(") line || pyIn (pstr "Connection(") line),
      ⟨pstr "ResourceLeak", pstr "Database connection not closed - use context manager", i⟩),
    (pyIn (pstr "open(") line &&
        !pyIn (pstr ".close()") (pySlice content (max 0 found) (min clen (found + 300))),
      ⟨pstr "ResourceLeak", pstr "File not closed - use \"with\" statement", i⟩),
    ((pyIn (pstr "@app.route") line || pyIn (pstr "@router") line) &&
        (!pyIn (pstr "methods=") line && !pyIn (pstr "get") lowered && !pyIn (pstr "post") lowered),
      ⟨pstr "APIIssue", pstr "HTTP method not specified for route", i⟩),
    (pyIn (pstr "return ") stripped && !pyIn (pstr "jsonify") line &&
        pyIn (pstr "@app") (pySlice content 0 found) &&
        (pyIn (pstr "dict") line || pyIn ['\x7b'] line),
      ⟨pstr "APIIssue", pstr "Return dict without jsonify() in Flask route", i⟩),
    (pyIn (pstr "try:") stripped &&
        (pyIn (pstr "except Exception:") ((pySlice content found clen).take 500) &&
         pyIn (pstr "pass") ((pySlice content found clen).take 500)),
      ⟨pstr "ErrorHandling", pstr "Empty exception handler - errors silently ignored", i⟩),
    (pyIn (pstr "raise Exception(") line,
      ⟨pstr "ErrorHandling", pstr "Generic Exception raised - use specific exception type", i⟩),
    (pyIn (pstr "== None") line && !pyIn (pstr "is None") line && !pyIn (pstr "# ") stripped,
      ⟨pstr "ComparisonBug", pstr "Use 'is None' instead of '== None'", i⟩),
    (pyIn (pstr "!= None") line && !pyIn (pstr "is not None") line && !pyIn (pstr "# ") stripped,
      ⟨pstr "ComparisonBug", pstr "Use 'is not None' instead of '!= None'", i⟩),
    (stripped = pstr "except:",
      ⟨pstr "BareExcept", pstr "Bare except clause - specify exception type", i⟩),
    (pyIn (pstr "def ") stripped && pyIn (pstr "=[]") (removeSpaces line),
      ⟨pstr "MutableDefault", pstr "Mutable default argument [] - use None instead", i⟩),
    (pyIn (pstr "def ") stripped && pyIn ('=' :: '{' :: '}' :: []) (removeSpaces line),
      ⟨pstr "MutableDefault",
        pstr "Mutable default argument " ++ ('{' :: '}' :: []) ++ pstr " - use None instead", i⟩),
    (pyIn (pstr "type(") line && pyIn (pstr ") ==") line && !pyIn (pstr "isinstance") line,
      ⟨pstr "TypeCheckBug", pstr "Use isinstance() instead of type() ==", i⟩),
    (reIfAssign line && !pyIn (pstr ":=") line,
      ⟨pstr "AssignmentInCondition", pstr "Assignment in condition - did you mean == ?", i⟩),
    (pyIn (pstr "import *") line,
      ⟨pstr "ImportIssue", pstr "Avoid wildcard imports - import specific names", i⟩),
    (pyIn (pstr "+=") line && pyIn (pstr "str") lowered &&
        pyIn (pstr "for ") (pySlice content (max 0 (found - 100)) found),
      ⟨pstr "PerformanceIssue", pstr "String concatenation in loop - use join() instead", i⟩),
    (!line.isEmpty && (pyEndswith (pstr " ") line || pyEndswith (pstr "\t") line),
      ⟨pstr "StyleIssue", pstr "Trailing whitespace", i⟩) ]

/-- One line of `_analyze_python`'s lexical battery: commented-out lines
    are skipped wholesale, otherwise the fired rules report in source
    order. -/
def lineChecks (content : PStr) (i : Nat) (line : PStr) : List Issue :=
  if pyStartswith (pstr "#") (pyStrip line) then []
  else (pythonLineRules content i line).filterMap
    (fun r => if r.1 then some r.2 else none)

/-- `for i, line in enumerate(lines, 1)`: the lexical battery over all
    lines, 1-indexed from `i0`. -/
def patternLoop (content : PStr) : Nat → List PStr → List Issue
  | _, [] => []
  | i, l :: ls => lineChecks content i l ++ patternLoop content (i + 1) ls

/-- `Analyzer._analyze_python` (`src/analyzer.py` lines 37-168): a failed
    parse yields exactly one issue and suppresses everything else;
    otherwise the tree checks run first, then the lexical battery. -/
def analyze_python (parse : ParseResult) (content : PStr) : List Issue :=
  match parse with
  | .indentationError msg lineno =>
    [⟨pstr "IndentationError", pstr "Indentation error: " ++ msg, lineno.getD 0⟩]
  | .synError str_e lineno =>
    [⟨pstr "SyntaxError", str_e, lineno.getD 0⟩]
  | .ok tree => analyze_ast tree ++ patternLoop content 1 (splitNl content)

/-- The `(condition, issue)` battery of `_analyze_javascript`
    (`src/analyzer.py` lines 212-248). -/
def jsLineRules (i : Nat) (line : PStr) : List (Bool × Issue) :=
  [ (pyIn (pstr "eval(") line,
      ⟨pstr "SecurityIssue", pstr "Avoid eval() - security risk", i⟩),
    (pyIn (pstr "innerHTML") line && pyIn (pstr "=") line,
      ⟨pstr "SecurityIssue", pstr "innerHTML can cause XSS - use textContent", i⟩),
    (pyIn (pstr "==") line && !pyIn (pstr "===") line && !pyIn (pstr "!=") line,
      ⟨pstr "ComparisonBug", pstr "Use === instead of ==", i⟩),
    (pyIn (pstr "!=") line && !pyIn (pstr "!==") line,
      ⟨pstr "ComparisonBug", pstr "Use !== instead of !=", i⟩),
    (pyIn (pstr "var ") line,
      ⟨pstr "StyleIssue", pstr "Use let or const instead of var", i⟩),
    (pyIn (pstr "console.log(") line,
      ⟨pstr "CodeQuality", pstr "Remove console.log in production", i⟩),
    (!line.isEmpty && (pyEndswith (pstr " ") line || pyEndswith (pstr "\t") line),
      ⟨pstr "StyleIssue", pstr "Trailing whitespace", i⟩) ]

/-- The per-line loop of `_analyze_javascript`. -/
def jsLoop : Nat → List PStr → List Issue
  | _, [] => []
  | i, l :: ls =>
    (if pyStartswith (pstr "//") (pyStrip l) then []
     else (jsLineRules i l).filterMap (fun r => if r.1 then some r.2 else none))
      ++ jsLoop (i + 1) ls

/-- `Analyzer._analyze_javascript`. -/
def analyze_javascript (content : PStr) : List Issue := jsLoop 1 (splitNl content)

/-- The `(condition, issue)` battery of `_analyze_html`
    (`src/analyzer.py` lines 250-277). -/
def htmlLineRules (i : Nat) (line : PStr) : List (Bool × Issue) :=
  [ (pyIn (pstr "<img") line && !pyIn (pstr "alt=") line,
      ⟨pstr "Accessibility", pstr "Image missing alt attribute", i⟩),
    (pyIn (pstr "style=") line && !pyIn (pstr "<style") line,
      ⟨pstr "CodeQuality", pstr "Avoid inline styles - use CSS", i⟩),
    (pyIn (pstr "<font") line || pyIn (pstr "<center") line,
      ⟨pstr "DeprecatedCode", pstr "Deprecated HTML tag - use CSS", i⟩),
    (!line.isEmpty && (pyEndswith (pstr " ") line || pyEndswith (pstr "\t") line),
      ⟨pstr "StyleIssue", pstr "Trailing whitespace", i⟩) ]

/-- The per-line loop of `_analyze_html`. -/
def htmlLoop : Nat → List PStr → List Issue
  | _, [] => []
  | i, l :: ls =>
    (if pyStartswith (pstr "<!--") (pyStrip l) then []
     else (htmlLineRules i l).filterMap (fun r => if r.1 then some r.2 else none))
      ++ htmlLoop (i + 1) ls

/-- `Analyzer._analyze_html`. -/
def analyze_html (content : PStr) : List Issue := htmlLoop 1 (splitNl content)

/-- The `(condition, issue)` battery of `_analyze_css`
    (`src/analyzer.py` lines 279-296); no line is ever skipped here. -/
def cssLineRules (i : Nat) (line : PStr) : List (Bool × Issue) :=
  [ (pyIn (pstr "!important") line,
      ⟨pstr "CodeQuality", pstr "Avoid !important - refactor specificity", i⟩),
    (reHex3 line,
      ⟨pstr "StyleIssue", pstr "Use 6-digit hex colors for consistency", i⟩),
    (!line.isEmpty && (pyEndswith (pstr " ") line || pyEndswith (pstr "\t") line),
      ⟨pstr "StyleIssue", pstr "Trailing whitespace", i⟩) ]

/-- The per-line loop of `_analyze_css`. -/
def cssLoop : Nat → List PStr → List Issue
  | _, [] => []
  | i, l :: ls =>
    (cssLineRules i l).filterMap (fun r => if r.1 then some r.2 else none)
      ++ cssLoop (i + 1) ls

/-- `Analyzer._analyze_css`. -/
def analyze_css (content : PStr) : List Issue := cssLoop 1 (splitNl content)

/-- `Analyzer.analyze` (`src/analyzer.py` lines 11-35).  `readResult` is
    the outcome of the fresh `open(...).read()`; a read error becomes the
    single `FileError` issue.  The dispatch by extension runs inside
    `try/except`; `dispatchFault` says whether that block raised (and with
    what message), in which case the single `AnalysisError` issue is
    produced — the embedded dispatchers themselves are total, so the
    parameter records a fault of the external runtime. -/
def analyze (suffix : PStr) (readResult : Except PStr PStr) (parse : ParseResult)
    (dispatchFault : Option PStr) : List Issue :=
  match readResult with
  | .error e => [⟨pstr "FileError", e, 0⟩]
  | .ok content =>
    match dispatchFault with
    | some e => [⟨pstr "AnalysisError", pstr "Failed to analyze: " ++ e, 0⟩]
    | none =>
      if suffix = pstr ".py" then analyze_python parse content
      else if suffix ∈ [pstr ".js", pstr ".jsx", pstr ".ts", pstr ".tsx"] then
        analyze_javascript content
      else if suffix ∈ [pstr ".html", pstr ".htm"] then analyze_html content
      else if suffix ∈ [pstr ".css", pstr ".scss", pstr ".sass"] then analyze_css content
      else []

/-- Python `s.replace(old, new)`: replace every occurrence, scanning left
    to right without overlap.  (The source never calls `replace` with an
    empty pattern; an empty `old` is treated as no match here, where
    CPython would interleave `new` everywhere.) -/
def pyReplace (s old new : PStr) : PStr :=
  match s with
  | [] => []
  | c :: cs =>
    if old ≠ [] ∧ old.isPrefixOf (c :: cs) then
      new ++ pyReplace (cs.drop (old.length - 1)) old new
    else
      c :: pyReplace cs old new
termination_by s.length
decreasing_by
  · simp only [List.length_cons, List.length_drop]
    omega
  · simp only [List.length_cons]
    omega

/-- Python `s.replace(old, new, 1)`: replace only the first occurrence. -/
def pyReplace1 (s old new : PStr) : PStr :=
  match s with
  | [] => []
  | c :: cs =>
    if old ≠ [] ∧ old.isPrefixOf (c :: cs) then
      new ++ (c :: cs).drop old.length
    else
      c :: pyReplace1 cs old new

/-- `re.sub` driver for a fixed-anchor pattern: `tryMatch` reports how
    many characters the pattern consumes at the current position (always
    at least one for the patterns used here); on a match the replacement
    is emitted and scanning resumes after the consumed region, exactly
    like `re.sub`'s non-overlapping left-to-right semantics. -/
def subPat (tryMatch : PStr → Option Nat) (repl : PStr) : PStr → PStr
  | [] => []
  | c :: cs =>
    match tryMatch (c :: cs) with
    | some (n + 1) => repl ++ subPat tryMatch repl (cs.drop n)
    | _ => c :: subPat tryMatch repl cs
termination_by s => s.length
decreasing_by
  · simp only [List.length_cons, List.length_drop]
    omega
  · simp only [List.length_cons]
    omega

/-- Matcher for the fixer's mutable-default patterns: an equals sign,
    optional whitespace, an opening bracket `lb`, optional whitespace and
    the closing bracket `rb`; reports the matched length. -/
def matchEqBrackets (lb rb : Char) (s : PStr) : Option Nat :=
  match s with
  | '=' :: rest =>
    let sp1 := rest.takeWhile isPySpace
    let r1 := rest.dropWhile isPySpace
    match r1 with
    | c :: r2 =>
      if c = lb then
        let sp2 := r2.takeWhile isPySpace
        let r3 := r2.dropWhile isPySpace
        match r3 with
        | d :: _ => if d = rb then some (1 + sp1.length + 1 + sp2.length + 1) else none
        | [] => none
      else none
    | [] => none
  | _ => none

/-- Matcher, at the current position, for the fixer's type-equality
    pattern: literal `type(`, one-or-more non-parenthesis characters
    (group 1), a closing parenthesis, optional whitespace, `==`, optional
    whitespace, then one-or-more word-or-dot characters (group 2).
    Returns the whole matched text and the two groups. -/
def matchTypeEqHere (s : PStr) : Option (PStr × PStr × PStr) :=
  if (pstr "type(").isPrefixOf s then
    let r0 := s.drop 5
    let g1 := r0.takeWhile (fun c => c ≠ ')')
    let r1 := r0.dropWhile (fun c => c ≠ ')')
    if g1.isEmpty then none
    else
      match r1 with
      | ')' :: r2 =>
        let sp1 := r2.takeWhile isPySpace
        let r3 := r2.dropWhile isPySpace
        if (pstr "==").isPrefixOf r3 then
          let r4 := r3.drop 2
          let sp2 := r4.takeWhile isPySpace
          let r5 := r4.dropWhile isPySpace
          let g2 := r5.takeWhile (fun c => isWordChar c || c = '.')
          if g2.isEmpty then none
          else some (pstr "type(" ++ g1 ++ [')'] ++ sp1 ++ pstr "==" ++ sp2 ++ g2, g1, g2)
        else none
      | _ => none
  else none

/-- `re.search` for the type-equality pattern: leftmost match. -/
def searchTypeEq : PStr → Option (PStr × PStr × PStr)
  | [] => none
  | c :: cs =>
    match matchTypeEqHere (c :: cs) with
    | some m => some m
    | none => searchTypeEq cs

/-- Matcher for the fixer's assignment-in-condition pattern (which,
    unlike the analyzer's, carries no word boundary): literal `if`,
    one-or-more whitespace, one-or-more word characters — together group
    1 — then optional whitespace, an equals sign and one character that
    is not a second equals sign.  Returns group 1. -/
def matchIfAssignGroupHere (s : PStr) : Option PStr :=
  match s with
  | 'i' :: 'f' :: rest =>
    let sp1 := rest.takeWhile isPySpace
    let r1 := rest.dropWhile isPySpace
    if sp1.isEmpty then none
    else
      let w := r1.takeWhile isWordChar
      let r2 := r1.dropWhile isWordChar
      if w.isEmpty then none
      else
        match r2.dropWhile isPySpace with
        | '=' :: d :: _ => if d = '=' then none else some ('i' :: 'f' :: (sp1 ++ w))
        | _ => none
  | _ => none

/-- `re.search` for the fixer's assignment-in-condition pattern. -/
def searchIfAssignGroup : PStr → Option PStr
  | [] => none
  | c :: cs =>
    match matchIfAssignGroupHere (c :: cs) with
    | some g => some g
    | none => searchIfAssignGroup cs

/-- Matcher for the fixer's unmanaged-open pattern: one-or-more word
    characters (group 1), optional whitespace, an equals sign, optional
    whitespace, literal `open(`, one-or-more non-parenthesis characters
    (group 2) and a closing parenthesis. -/
def matchAssignOpenHere (s : PStr) : Option (PStr × PStr) :=
  let g1 := s.takeWhile isWordChar
  let r1 := s.dropWhile isWordChar
  if g1.isEmpty then none
  else
    let r2 := r1.dropWhile isPySpace
    match r2 with
    | '=' :: r3 =>
      let r4 := r3.dropWhile isPySpace
      if (pstr "open(").isPrefixOf r4 then
        let r5 := r4.drop 5
        let g2 := r5.takeWhile (fun c => c ≠ ')')
        let r6 := r5.dropWhile (fun c => c ≠ ')')
        if g2.isEmpty then none
        else
          match r6 with
          | ')' :: _ => some (g1, g2)
          | _ => none
      else none
    | _ => none

/-- `re.search` for the unmanaged-open pattern. -/
def searchAssignOpen : PStr → Option (PStr × PStr)
  | [] => none
  | c :: cs =>
    match matchAssignOpenHere (c :: cs) with
    | some m => some m
    | none => searchAssignOpen cs

/-- Matcher for the fixer's returned-dict pattern: literal `return`,
    one-or-more whitespace, then a braced group of one-or-more characters
    none of which is a closing brace.  Returns the whole match and the
    braced group. -/
def matchReturnDictHere (s : PStr) : Option (PStr × PStr) :=
  if (pstr "return").isPrefixOf s then
    let r0 := s.drop 6
    let sp := r0.takeWhile isPySpace
    let r1 := r0.dropWhile isPySpace
    if sp.isEmpty then none
    else
      match r1 with
      | '{' :: r2 =>
        let inner := r2.takeWhile (fun c => c ≠ '}')
        let r3 := r2.dropWhile (fun c => c ≠ '}')
        if inner.isEmpty then none
        else
          match r3 with
          | '}' :: _ =>
            some (pstr "return" ++ sp ++ ('{' :: inner) ++ ['}'], ('{' :: inner) ++ ['}'])
          | _ => none
      | _ => none
  else none

/-- `re.search` for the returned-dict pattern. -/
def searchReturnDict : PStr → Option (PStr × PStr)
  | [] => none
  | c :: cs =>
    match matchReturnDictHere (c :: cs) with
    | some m => some m
    | none => searchReturnDict cs

/-- The body of the `for issue in issues` loop of
    `Fixer._pattern_based_fix` (`src/fixer.py` lines 75-239), one issue at
    a time over the current line array.  An out-of-range line number skips
    the body (`src/fixer.py` lines 76-78); otherwise the branch for the
    issue's kind rewrites the current line and/or inserts new lines, and
    the final write-back stores the line only when it changed.  `content`
    is the function's original `content` argument, which the `APIIssue`
    branch consults for the flask import. -/
def applyIssue (content : PStr) (lines : List PStr) (issue : Issue) : List PStr :=
  let line_num := issue.line
  if line_num < 1 ∨ line_num > lines.length then lines
  else
    let line := lines.getD (line_num - 1) []
    let issue_type := issue.type
    let indent := line.length - (pyLstrip line).length
    let stripped := pyStrip line
    let ind : PStr := List.replicate indent ' '
    let result : List PStr × PStr :=
      if issue_type = pstr "ComparisonBug" then
        (lines,
          if pyIn (pstr "== None") line && !pyIn (pstr "is None") line then
            pyReplace line (pstr "== None") (pstr "is None")
          else if pyIn (pstr "!= None") line && !pyIn (pstr "is not None") line then
            pyReplace line (pstr "!= None") (pstr "is not None")
          else if pyIn (pstr "== True") line && !pyIn (pstr "is True") line then
            pyReplace line (pstr "== True") (pstr "is True")
          else if pyIn (pstr "== False") line && !pyIn (pstr "is False") line then
            pyReplace line (pstr "== False") (pstr "is False")
          else if pyIn (pstr "==") line && !pyIn (pstr "===") line && !pyIn (pstr "is") line then
            pyReplace1 line (pstr "==") (pstr "===")
          else if pyIn (pstr "!=") line && !pyIn (pstr "!==") line && !pyIn (pstr "is not") line then
            pyReplace1 line (pstr "!=") (pstr "!==")
          else line)
      else if issue_type = pstr "BareExcept" then
        (lines, pyReplace line (pstr "except:") (pstr "except Exception:"))
      else if issue_type = pstr "MutableDefault" then
        (lines, subPat (matchEqBrackets '{' '}') (pstr "=None")
                  (subPat (matchEqBrackets '[' ']') (pstr "=None") line))
      else if issue_type = pstr "TypeCheckBug" then
        (lines,
          match searchTypeEq line with
          | some (whole, g1, g2) =>
            pyReplace line whole (pstr "isinstance(" ++ g1 ++ pstr ", " ++ g2 ++ pstr ")")
          | none => line)
      else if issue_type = pstr "ImportIssue" then
        (lines,
          if pyIn (pstr "import *") line then
            if pyIn (pstr "from flask import *") line then
              ind ++ pstr "from flask import Flask, request, jsonify, render_template"
            else if pyIn (pstr "from django") line then
              ind ++ pstr "# " ++ stripped ++ pstr "  # TODO: Import specific items"
            else
              ind ++ pstr "# " ++ stripped ++ pstr "  # TODO: Replace wildcard import"
          else line)
      else if issue_type = pstr "SecurityIssue" then
        (lines,
          if pyIn (pstr "eval(") line then
            ind ++ pstr "# " ++ stripped ++ pstr "  # SECURITY: Use ast.literal_eval()"
          else if pyIn (pstr "exec(") line then
            ind ++ pstr "# " ++ stripped ++ pstr "  # SECURITY: Refactor"
          else if pyIn (pstr "innerHTML") line then
            pyReplace line (pstr "innerHTML") (pstr "textContent")
          else if pyIn (pstr "shell=True") line then
            pyReplace line (pstr "shell=True") (pstr "shell=False")
          else if pyIn (pstr "pickle.load") line then
            ind ++ pstr "# " ++ stripped ++ pstr "  # SECURITY: Use json"
          else if pyIn (pstr "verify=False") line then
            pyReplace line (pstr "verify=False") (pstr "verify=True")
          else if pyIn (pstr "SQL injection") issue.message then
            ind ++ pstr "# " ++ stripped ++ pstr "  # SECURITY: Use parameterized queries"
          else if pyIn (pstr "password") (pyLower line) && pyIn (pstr "log") (pyLower line) then
            ind ++ pstr "# " ++ stripped ++ pstr "  # SECURITY: Remove password logging"
          else if pyIn (pstr "api_key") (pyLower line) then
            ind ++ pstr "# " ++ stripped ++ pstr "  # SECURITY: Move to environment variable"
          else line)
      else if issue_type = pstr "CodeQuality" then
        (lines,
          if pyIn (pstr "console.log(") line then
            ind ++ pstr "// " ++ stripped
          else if pyIn (pstr "!important") line then
            pyReplace line (pstr "!important") (pstr "")
          else line)
      else if issue_type = pstr "DeprecatedCode" then
        (lines,
          if pyIn (pstr "var ") line then
            pyReplace line (pstr "var ") (pstr "let ")
          else if pyIn (pstr "<font") line || pyIn (pstr "<center") line then
            pstr "<!-- " ++ stripped ++ pstr " -->"
          else line)
      else if issue_type = pstr "Accessibility" then
        (lines,
          if pyIn (pstr "<img") line && !pyIn (pstr "alt=") line then
            pyReplace line (pstr "<img") (pstr "<img alt=\"\"")
          else line)
      else if issue_type = pstr "StyleIssue" then
        (lines, pyRstrip line)
      else if issue_type = pstr "AssignmentInCondition" then
        (lines,
          if !pyIn (pstr ":=") line then
            match searchIfAssignGroup line with
            | some g1 => pyReplace1 line (g1 ++ pstr " =") (g1 ++ pstr " ==")
            | none => line
          else line)
      else if issue_type = pstr "EmptyFunction" then
        (lines,
          if pyIn (pstr "pass") line then ind ++ pstr "raise NotImplementedError()" else line)
      else if issue_type = pstr "PerformanceIssue" then
        (lines,
          if pyIn (pstr "sleep(") line then
            ind ++ pstr "# " ++ stripped ++ pstr "  # TODO: Use async/await"
          else
            ind ++ pstr "# " ++ stripped ++ pstr "  # TODO: Use join()")
      else if issue_type = pstr "DuplicateException" then
        (lines, ind ++ pstr "# " ++ stripped ++ pstr "  # Duplicate")
      else if issue_type = pstr "ResourceLeak" then
        (lines,
          if pyIn (pstr "open(") line && !pyIn (pstr "with") line then
            match searchAssignOpen line with
            | some (g1, g2) => ind ++ pstr "with open(" ++ g2 ++ pstr ") as " ++ g1 ++ pstr ":"
            | none => line
          else if pyIn (pstr "connect(") line || pyIn (pstr "Connection(") line then
            ind ++ pstr "# " ++ stripped ++ pstr "  # TODO: Use context manager or close()"
          else line)
      else if issue_type = pstr "DatabaseIssue" then
        (if pyIn (pstr "execute") line then
          lines.insertIdx line_num (ind ++ pstr "conn.commit()  # Auto-added")
         else lines, line)
      else if issue_type = pstr "APIIssue" then
        if !pyIn (pstr "methods=") line && pyIn (pstr "@app.route") line then
          (lines,
            if pyIn (pstr "(") line && pyIn (pstr ")") line then
              pyReplace line (pstr ")") (pstr ", methods=[\"GET\", \"POST\"])")
            else line)
        else if pyIn (pstr "return ") stripped && !pyIn (pstr "jsonify") line &&
            pyIn (pstr "dict") issue.message then
          match searchReturnDict line with
          | some (whole, g1) =>
            (if !pyIn (pstr "from flask import") content then
              (pstr "from flask import jsonify") :: lines
             else lines,
             pyReplace line whole (pstr "return jsonify(" ++ g1 ++ pstr ")"))
          | none => (lines, line)
        else (lines, line)
      else if issue_type = pstr "ErrorHandling" then
        (lines,
          if pyIn (pstr "raise Exception(") line then
            pyReplace line (pstr "raise Exception(") (pstr "raise ValueError(")
          else if pyIn (pstr "pass") line then
            ind ++ pstr "logger.error(\"Error occurred\")  # TODO: Handle error properly"
          else line)
      else if issue_type = pstr "MissingLogging" then
        (if !pyIn (pstr "import logging") (joinNl (lines.take 20)) then
          (pstr "import logging\n") :: (pstr "logger = logging.getLogger(__name__)\n") :: lines
         else lines, line)
      else if issue_type = pstr "MissingErrorHandling" then
        (lines.insertIdx line_num (ind ++ pstr "# TODO: Add try-except error handling"), line)
      else if issue_type = pstr "LongFunction" then
        (lines.insertIdx line_num
          (ind ++ pstr "# TODO: Refactor - function too long, split into smaller functions"),
         line)
      else (lines, line)
    if result.2 ≠ line then result.1.set (line_num - 1) result.2 else result.1

/-- `Fixer._pattern_based_fix` (`src/fixer.py` lines 64-241): split into
    lines, prepend the logging import once when any issue message mentions
    logging and the content lacks it, fold the per-issue loop, and join. -/
def pattern_based_fix (content : PStr) (issues : List Issue) : PStr :=
  let lines := splitNl content
  let needs_logging := issues.any (fun i => pyIn (pstr "logging") (pyLower i.message))
  let lines :=
    if needs_logging && !pyIn (pstr "import logging") content then
      (pstr "import logging\n") :: lines
    else lines
  joinNl (issues.foldl (applyIssue content) lines)

/-- `backup_file` (`src/utils.py` lines 9-25), at the granularity of path
    names.  `name` is `file_path.name`, `stem`/`suffix` its stem and
    extension, `timestamp` the formatted current time and `copyOk` whether
    the `shutil.copy2` call succeeds.  The result records the copy the call
    performed (`none` when no bytes were copied) and the returned path's
    name. -/
def backup_file (name stem suffix timestamp : PStr) (copyOk : Bool) :
    Option (PStr × PStr) × PStr :=
  if pyIn (pstr ".backup_") name then (none, name)
  else
    let backup_name := stem ++ pstr ".backup_" ++ timestamp ++ suffix
    if copyOk then (some (name, backup_name), backup_name) else (none, name)

/-- One file as seen by `AutoFixAgent._scan_files` (`src/agent.py` lines
    35-80).  The file system and the analyzer are external to the loop, so
    their answers for this file are carried as fields: `statSize` is
    `file_path.stat().st_size` (or the exception it raised), `readContent`
    is `open(...).read()` (or its exception), and `issues` is the value of
    `self.analyzer.analyze(file_path)`, whose computation from the bytes is
    embedded separately by `analyze` below. -/
structure ScanFile where
  path : PStr
  statSize : Except PStr Nat
  readContent : Except PStr PStr
  issues : List Issue

/-- The scan-result dictionary built by `_scan_files`. -/
structure ScanResults where
  scanned_files : Nat
  files_with_issues : Nat
  files_fixed : Nat
  files_list : List PStr
  issues_found : List (PStr × Issue)
deriving DecidableEq

/-- The per-file body of the `_scan_files` loop (`src/agent.py` lines
    55-77): skip migration/alembic paths, skip files over 500 000 bytes,
    skip unreadable files, otherwise record the analyzer's issues. -/
def scanStep (acc : ScanResults) (f : ScanFile) : ScanResults :=
  if pyIn (pstr "migration") (pyLower f.path) || pyIn (pstr "alembic") (pyLower f.path) then
    acc
  else
    match f.statSize with
    | .error _ => acc
    | .ok file_size =>
      if file_size > 500000 then acc
      else
        match f.readContent with
        | .error _ => acc
        | .ok _ =>
          if f.issues.isEmpty then acc
          else
            { acc with
              files_with_issues := acc.files_with_issues + 1,
              issues_found := acc.issues_found ++ f.issues.map (fun i => (f.path, i)) }

/-- `AutoFixAgent._scan_files` (`src/agent.py` lines 35-80): truncate the
    discovered list to `MAX_FILES = 100`, count and list the remaining
    files, then run the per-file loop. -/
def scan_files (files0 : List ScanFile) : ScanResults :=
  let files := if files0.length > 100 then files0.take 100 else files0
  files.foldl scanStep
    { scanned_files := files.length
      files_with_issues := 0
      files_fixed := 0
      files_list := files.map (·.path)
      issues_found := [] }

/-- A file-system operation performed by the fix loop: the backup copy
    `backup_file` would make, or the destructive `write_file`. -/
inductive FsOp where
  | backupCopy (src dst : PStr)
  | fileWrite (path : PStr) (data : PStr)
deriving DecidableEq

/-- Is the operation a backup copy? -/
def FsOp.isBackup : FsOp → Bool
  | .backupCopy _ _ => true
  | .fileWrite _ _ => false

/-- One file as seen by `AutoFixAgent._fix_files` (`src/agent.py` lines
    82-113).  `readResult` is `open(...).read()`; `fixResult` is the value
    (or exception) of the `self.fixer.fix` / `self.refactorer.refactor_file`
    composition, carried as a parameter because that composition may call an
    external model; `writeOk` is whether `write_file` succeeds; `issues` is
    this file's slice of `scan_results["issues_found"]`. -/
structure FixFile where
  path : PStr
  readResult : Except PStr PStr
  fixResult : Except PStr PStr
  writeOk : Bool
  issues : List Issue

/-- The accumulated fix results plus the trace of file-system operations
    the loop performs. -/
structure FixAcc where
  files_fixed : Nat
  fixes_applied : List (PStr × PStr × Nat)
  ops : List FsOp
deriving DecidableEq

/-- The per-file body of the `_fix_files` loop (`src/agent.py` lines
    87-110).  Every step of the body runs inside `try/except Exception`:
    an exception from the read, the fixer or the write lands in the
    `except` branch, which only logs, so the accumulator survives
    unchanged except for work already performed.  Note the body calls
    `write_file` directly — `backup_file` is never invoked, so no
    `FsOp.backupCopy` is ever emitted. -/
def fixFileStep (acc : FixAcc) (f : FixFile) : FixAcc :=
  match f.readResult with
  | .error _ => acc
  | .ok original_content =>
    match f.fixResult with
    | .error _ => acc
    | .ok fixed_content =>
      if fixed_content ≠ original_content ∧ validate_fix original_content fixed_content then
        -- `write_file(file_path, fixed_content)`; the write is attempted
        -- here, and only a successful write reaches the bookkeeping below
        let acc := { acc with ops := acc.ops ++ [FsOp.fileWrite f.path fixed_content] }
        if f.writeOk then
          { acc with
            files_fixed := acc.files_fixed + 1,
            fixes_applied := acc.fixes_applied ++ [(f.path, pstr "fixed", f.issues.length)] }
        else acc
      else acc

/-- `AutoFixAgent._fix_files` over the (set-deduplicated) list of files
    with issues. -/
def fix_files (files : List FixFile) : FixAcc :=
  files.foldl fixFileStep { files_fixed := 0, fixes_applied := [], ops := [] }

/-- `AutoFixAgent.run` (`src/agent.py` lines 20-33): scan, and if
    `auto_fix` is set and some file had issues, run the fix loop and merge
    its counts into the scan results. -/
def agentRun (scanFiles : List ScanFile) (fixFiles : List FixFile) (auto_fix : Bool) :
    ScanResults × FixAcc :=
  let scan := scan_files scanFiles
  if auto_fix ∧ scan.files_with_issues > 0 then
    let fix := fix_files fixFiles
    ({ scan with files_fixed := fix.files_fixed }, fix)
  else
    (scan, { files_fixed := 0, fixes_applied := [], ops := [] })

-- Basic facts about the string helpers, shared by several proofs below.

theorem pyLstrip_all_space (s : PStr) (h : ∀ c ∈ s, isPySpace c) :
    pyLstrip s = [] := by
  simp [pyLstrip, List.dropWhile_eq_nil_iff]
  intro c hc
  exact h c hc

theorem pyStrip_nil_of_all_space (s : PStr) (h : ∀ c ∈ s, isPySpace c) :
    pyStrip s = [] := by
  simp [pyStrip, pyLstrip_all_space s h, pyRstrip]

theorem mem_dropWhile_of_not (p : Char → Bool) (l : PStr) (c : Char)
    (hc : c ∈ l) (h : ¬ p c) : c ∈ l.dropWhile p := by
  induction l with
  | nil => simp at hc
  | cons a l ih =>
    by_cases hpa : p a
    · rcases List.mem_cons.1 hc with rfl | hcl
      · exact absurd hpa h
      · simpa [List.dropWhile, hpa] using ih hcl
    · simpa [List.dropWhile, hpa] using hc

theorem mem_pyStrip_of_not_space (s : PStr) (c : Char) (hc : c ∈ s)
    (h : ¬ isPySpace c) : c ∈ pyStrip s := by
  have h1 : c ∈ pyLstrip s := mem_dropWhile_of_not _ _ _ hc h
  have h2 : c ∈ (pyLstrip s).reverse := by simpa using h1
  have h3 := mem_dropWhile_of_not isPySpace _ _ h2 h
  simp only [pyStrip, pyRstrip]
  simpa using h3

theorem pyStrip_nonnil_of_not_space (s : PStr) (c : Char) (hc : c ∈ s)
    (h : ¬ isPySpace c) : pyStrip s ≠ [] := by
  intro hnil
  have := mem_pyStrip_of_not_space s c hc h
  rw [hnil] at this
  simp at this

theorem validate_fix_spec (o c : PStr) :
    validate_fix o c = true ↔ ((∃ ch ∈ c, ¬ isPySpace ch) ∧ o.length ≤ 5 * c.length) := by
  constructor
  · intro h
    simp only [validate_fix] at h
    by_cases h1 : c.isEmpty || (pyStrip c).isEmpty
    · simp [h1] at h
    · simp only [h1, if_false] at h
      by_cases h2 : 5 * c.length < o.length
      · simp [h2] at h
      · refine ⟨?_, by omega⟩
        simp only [Bool.or_eq_true, List.isEmpty_iff, not_or] at h1
        obtain ⟨hc, hs⟩ := h1
        by_contra hall
        push_neg at hall
        exact hs (by simpa using pyStrip_nil_of_all_space c (by simpa using hall))
  · rintro ⟨⟨ch, hch, hsp⟩, hlen⟩
    have hne : pyStrip c ≠ [] := pyStrip_nonnil_of_not_space c ch hch hsp
    have hcne : c ≠ [] := by rintro rfl; simp at hch
    have hlt : ¬ 5 * c.length < o.length := by omega
    simp [validate_fix, List.isEmpty_iff, hne, hcne, hlt]

-- Invariants of the scan fold: the per-file loop never touches the counts
-- and lists that `_scan_files` computed up front.

theorem scanStep_preserves (acc : ScanResults) (f : ScanFile) :
    (scanStep acc f).scanned_files = acc.scanned_files ∧
    (scanStep acc f).files_list = acc.files_list ∧
    (scanStep acc f).files_fixed = acc.files_fixed := by
  unfold scanStep
  (repeat' split) <;> exact ⟨rfl, rfl, rfl⟩

theorem scanFold_preserves (fs : List ScanFile) (acc : ScanResults) :
    ((fs.foldl scanStep acc).scanned_files = acc.scanned_files ∧
     (fs.foldl scanStep acc).files_list = acc.files_list ∧
     (fs.foldl scanStep acc).files_fixed = acc.files_fixed) := by
  induction fs generalizing acc with
  | nil => exact ⟨rfl, rfl, rfl⟩
  | cons f fs ih =>
    have h1 := scanStep_preserves acc f
    have h2 := ih (scanStep acc f)
    simp only [List.foldl_cons]
    exact ⟨h2.1.trans h1.1, h2.2.1.trans h1.2.1, h2.2.2.trans h1.2.2⟩

theorem scan_files_scanned (fs : List ScanFile) :
    (scan_files fs).scanned_files = min fs.length 100 ∧
    (scan_files fs).files_list =
      (if fs.length > 100 then fs.take 100 else fs).map (·.path) := by
  unfold scan_files
  constructor
  · rcases Nat.lt_or_ge 100 fs.length with h | h
    · rw [if_pos h, (scanFold_preserves _ _).1]
      simp; omega
    · rw [if_neg (by omega), (scanFold_preserves _ _).1]
      simp; omega
  · split <;> exact (scanFold_preserves _ _).2.1

/-- C3, counterexample: on the pair `original = ""`, `candidate = ""` the
    claim predicts `True` — the original was empty, so its first rejection
    clause does not apply, and the candidate is not shorter than 20% of the
    (zero-length) original — yet `validate_fix` returns `False`: the code
    rejects an empty candidate unconditionally. -/
theorem claim_C3_counterexample :
    validate_fix (pstr "") (pstr "") = false ∧
    pstr "" = ([] : PStr) ∧
    ¬ (5 * (pstr "").length < (pstr "").length) := by
  decide

/-- C3, amended: `validate` returns `False` exactly when the candidate is
    empty or whitespace-only — regardless of whether the original was
    empty — or when the candidate's length is under 20% of the original's
    length; it returns `True` for every other pair, without re-verifying
    syntactic correctness. -/
theorem claim_C3_amended (original candidate : PStr) :
    validate_fix original candidate = true ↔
      ((∃ ch ∈ candidate, ¬ isPySpace ch) ∧ original.length ≤ 5 * candidate.length) :=
  validate_fix_spec original candidate

/-- C6: when the discovered file set exceeds the ceiling of 100 files, the
    run is identical to a run over just the first 100 files: the overflow
    files are not counted in `scanned_files` (which is exactly 100), are
    absent from the returned file list, and — since the whole result
    coincides — contribute no issue or error entries of any kind. -/
theorem claim_C6_overflow (files0 : List ScanFile) (h : files0.length > 100) :
    scan_files files0 = scan_files (files0.take 100) ∧
    (scan_files files0).scanned_files = 100 ∧
    (scan_files files0).files_list = (files0.take 100).map (·.path) := by
  have hno : ¬ ((files0.take 100).length > 100) := by
    simp [List.length_take]
  refine ⟨?_, ?_, ?_⟩
  · unfold scan_files
    rw [if_pos h, if_neg hno]
  · rw [(scan_files_scanned files0).1]
    omega
  · rw [(scan_files_scanned files0).2, if_pos h]

/-- C6 witness: a concrete 101-file scan is capped at 100 counted files. -/
theorem claim_C6_overflow_witness :
    (scan_files (List.replicate 101
        { path := pstr "a.py", statSize := .ok 1, readContent := .ok [],
          issues := [] })).scanned_files = 100 := by
  have h : (List.replicate 101
      ({ path := pstr "a.py", statSize := .ok 1, readContent := .ok [],
         issues := [] } : ScanFile)).length > 100 := by
    simp
  exact (claim_C6_overflow _ h).2.1

/-- C10: a file over 500 000 bytes, or one whose path contains
    `migration` or `alembic` case-insensitively, leaves the loop
    accumulator untouched — it is never analyzed, contributes no issue and
    does not increment `files_with_issues` — while it still counts toward
    `scanned_files` and appears in the returned file list. -/
theorem claim_C10_skipped_but_counted (f : ScanFile)
    (h : (pyIn (pstr "migration") (pyLower f.path)
            || pyIn (pstr "alembic") (pyLower f.path)) = true
         ∨ ∃ n, f.statSize = .ok n ∧ n > 500000) :
    (∀ acc, scanStep acc f = acc) ∧
    ∀ fs : List ScanFile, fs.length ≤ 100 → f ∈ fs →
      f.path ∈ (scan_files fs).files_list ∧
      (scan_files fs).scanned_files = fs.length := by
  constructor
  · intro acc
    unfold scanStep
    by_cases hm : (pyIn (pstr "migration") (pyLower f.path)
        || pyIn (pstr "alembic") (pyLower f.path)) = true
    · rw [if_pos hm]
    · rcases h with h | ⟨n, hn, hgt⟩
      · exact absurd h hm
      · rw [if_neg hm, hn]
        simp [hgt]
  · intro fs hlen hmem
    constructor
    · rw [(scan_files_scanned fs).2, if_neg (by omega)]
      exact List.mem_map_of_mem _ hmem
    · rw [(scan_files_scanned fs).1]
      omega

/-- C10 witness: a migration-path file and an oversize file, inside a
    concrete two-file scan, are skipped by the loop yet counted and
    listed. -/
theorem claim_C10_skipped_but_counted_witness :
    (let fmig : ScanFile :=
      { path := pstr "app/Migrations/0001_init.py", statSize := .ok 10,
        readContent := .ok [], issues := [⟨pstr "StyleIssue", pstr "x", 1⟩] }
     let fbig : ScanFile :=
      { path := pstr "app/big.py", statSize := .ok 500001,
        readContent := .ok [], issues := [⟨pstr "StyleIssue", pstr "x", 1⟩] }
     scanStep (scan_files [fmig, fbig]) fmig = scan_files [fmig, fbig] ∧
     scanStep (scan_files [fmig, fbig]) fbig = scan_files [fmig, fbig] ∧
     pstr "app/Migrations/0001_init.py" ∈ (scan_files [fmig, fbig]).files_list ∧
     (scan_files [fmig, fbig]).scanned_files = 2) := by
  refine ⟨?_, ?_, ?_, ?_⟩
  · exact (claim_C10_skipped_but_counted _ (Or.inl (by decide))).1 _
  · exact (claim_C10_skipped_but_counted _ (Or.inr ⟨500001, rfl, by omega⟩)).1 _
  · exact ((claim_C10_skipped_but_counted _ (Or.inl (by decide))).2 _ (by decide)
      (List.mem_cons_self _ _)).1
  · exact ((claim_C10_skipped_but_counted _ (Or.inl (by decide))).2 _ (by decide)
      (List.mem_cons_self _ _)).2

/-- C8: every per-file fault is absorbed at the file boundary.  In the fix
    loop a read error, a fixer error, or a write failure leaves the
    accumulated counts unchanged (the failed write contributes only its
    attempted operation, never a `fixed` entry); in the scan loop a stat or
    read error leaves the accumulator unchanged (the analyzer's own read
    faults are converted to `FileError` issues by `analyze`, proved with
    C7's layer); and `run` is a total function whose scan counts are the
    aggregate `min(#files, 100)` no matter which per-file inputs fault. -/
theorem claim_C8_fault_isolation :
    (∀ (acc : FixAcc) (f : FixFile) e, f.readResult = .error e →
        fixFileStep acc f = acc) ∧
    (∀ (acc : FixAcc) (f : FixFile) o e, f.readResult = .ok o →
        f.fixResult = .error e → fixFileStep acc f = acc) ∧
    (∀ (acc : FixAcc) (f : FixFile), f.writeOk = false →
        (fixFileStep acc f).files_fixed = acc.files_fixed ∧
        (fixFileStep acc f).fixes_applied = acc.fixes_applied) ∧
    (∀ (acc : ScanResults) (g : ScanFile) e, g.statSize = .error e →
        scanStep acc g = acc) ∧
    (∀ (acc : ScanResults) (g : ScanFile) n e, g.statSize = .ok n →
        g.readContent = .error e → scanStep acc g = acc) ∧
    (∀ (sf : List ScanFile) (ff : List FixFile) (af : Bool),
        (agentRun sf ff af).1.scanned_files = min sf.length 100) := by
  refine ⟨?_, ?_, ?_, ?_, ?_, ?_⟩
  · intro acc f e h
    unfold fixFileStep
    rw [h]
  · intro acc f o e ho he
    unfold fixFileStep
    rw [ho, he]
  · intro acc f hw
    obtain ⟨p, rr, fr, w, iss⟩ := f
    subst hw
    cases rr with
    | error e => exact ⟨rfl, rfl⟩
    | ok o =>
      cases fr with
      | error e => exact ⟨rfl, rfl⟩
      | ok c =>
        simp only [fixFileStep]
        split
        · simp
        · exact ⟨rfl, rfl⟩
  · intro acc g e h
    unfold scanStep
    rw [h]
    split <;> rfl
  · intro acc g n e hn he
    unfold scanStep
    rw [hn, he]
    (repeat' split) <;> first | rfl | simp_all
  · intro sf ff af
    simp only [agentRun]
    split
    · exact (scan_files_scanned sf).1
    · exact (scan_files_scanned sf).1

/-- C8 witness: concrete faulty files — an unreadable file in each loop, a
    failing fixer, a failing write — all leave the aggregates untouched,
    and a run over them still reports its counts. -/
theorem claim_C8_fault_isolation_witness :
    (let acc : FixAcc := ⟨3, [], []⟩
     let sacc : ScanResults := ⟨2, 1, 0, [], []⟩
     fixFileStep acc ⟨pstr "a.py", .error (pstr "denied"), .ok [], true, []⟩ = acc ∧
     fixFileStep acc ⟨pstr "b.py", .ok (pstr "x"), .error (pstr "boom"), true, []⟩ = acc ∧
     (fixFileStep acc
        ⟨pstr "c.py", .ok (pstr "x = 1"), .ok (pstr "x = 2"), false, []⟩).files_fixed =
       acc.files_fixed ∧
     scanStep sacc ⟨pstr "d.py", .error (pstr "gone"), .ok [], []⟩ = sacc ∧
     scanStep sacc ⟨pstr "e.py", .ok 5, .error (pstr "denied"), []⟩ = sacc ∧
     (agentRun [⟨pstr "d.py", .error (pstr "gone"), .ok [], []⟩] [] true).1.scanned_files
       = 1) := by
  refine ⟨?_, ?_, ?_, ?_, ?_, ?_⟩
  · exact claim_C8_fault_isolation.1 _ _ _ rfl
  · exact claim_C8_fault_isolation.2.1 _ _ _ _ rfl rfl
  · exact (claim_C8_fault_isolation.2.2.1 _ _ rfl).1
  · exact claim_C8_fault_isolation.2.2.2.1 _ _ _ rfl
  · exact claim_C8_fault_isolation.2.2.2.2.1 _ _ _ _ rfl rfl
  · exact claim_C8_fault_isolation.2.2.2.2.2 _ _ _

/-- C1: evaluating the fix loop on a concrete successful fix run — the file
    is read, rewritten, validated and written back — shows `files_fixed = 1`
    and an operation trace consisting of exactly one destructive write and
    no backup copy whatsoever: `_fix_files` never calls `backup_file`, so no
    sibling backup with the pre-fix bytes is created before the write.  The
    final conjunct checks the half of the claim `backup_file` itself does
    honor: a name already carrying the `.backup_` marker is never copied
    again. -/
theorem claim_C1_no_backup_created :
    (let f : FixFile :=
      { path := pstr "app.py"
        readResult := .ok (pstr "if x == None:\n    y = 1")
        fixResult := .ok (pstr "if x is None:\n    y = 1")
        writeOk := true
        issues := [⟨pstr "ComparisonBug", pstr "Use 'is None' instead of '== None'", 1⟩] }
     (fix_files [f]).files_fixed = 1 ∧
     (fix_files [f]).ops =
       [FsOp.fileWrite (pstr "app.py") (pstr "if x is None:\n    y = 1")] ∧
     ((fix_files [f]).ops.filter FsOp.isBackup) = [] ∧
     (backup_file (pstr "app.backup_20250101_000000.py")
        (pstr "app.backup_20250101_000000") (pstr ".py")
        (pstr "20250101_010101") true).1 = none) := by
  decide

/-- C4, counterexample: an indentation failure is a failed tree
    construction, but the single issue the analyzer emits for it has kind
    `IndentationError`, not `SyntaxError` (the source catches
    `IndentationError` first and gives it its own kind, `src/analyzer.py`
    lines 45-51).  The parse outcome below is what `ast.parse` produces on
    the two-line file `def f():` / `return 1`, whose body is not
    indented: CPython raises `IndentationError` with `lineno = 2`. -/
theorem claim_C4_counterexample :
    analyze_python
      (.indentationError (pstr "expected an indented block after function definition on line 1")
        (some 2))
      (pstr "def f():\nreturn 1") =
      [⟨pstr "IndentationError",
        pstr "Indentation error: expected an indented block after function definition on line 1",
        2⟩] ∧
    pstr "IndentationError" ≠ pstr "SyntaxError" := by
  decide

/-- C4, amended: when tree construction fails, `_analyze_python` returns
    exactly one issue at the failing line and suppresses all further
    analysis — of kind `SyntaxError` for a general syntax failure, and of
    kind `IndentationError` when the failure is an indentation error. -/
theorem claim_C4_single_issue (msg : PStr) (lineno : Option Nat) (content : PStr) :
    analyze_python (.synError msg lineno) content =
      [⟨pstr "SyntaxError", msg, lineno.getD 0⟩] ∧
    analyze_python (.indentationError msg lineno) content =
      [⟨pstr "IndentationError", pstr "Indentation error: " ++ msg, lineno.getD 0⟩] :=
  ⟨rfl, rfl⟩

/-- C7: the deterministic layer of `analyze` is a pure function of the
    file's bytes and of the (itself deterministic) parse outcome: two
    calls over identical bytes, identical parse outcomes and no
    intervening runtime fault produce identical issue lists — same kinds,
    messages, lines and order.  In this embedding `analyze` takes nothing
    but those inputs — transcribing the source required no hidden state,
    no clock and no randomness — so determinism is congruence. -/
theorem claim_C7_deterministic (suffix : PStr) (r₁ r₂ : Except PStr PStr)
    (p₁ p₂ : ParseResult) (hr : r₁ = r₂) (hp : p₁ = p₂) :
    analyze suffix r₁ p₁ none = analyze suffix r₂ p₂ none := by
  rw [hr, hp]

/-- C7 witness: a concrete double analysis of one Python file returns the
    same list both times. -/
theorem claim_C7_deterministic_witness :
    analyze (pstr ".py") (.ok (pstr "x = eval(s)")) (.ok (.otherNode 1 [])) none =
    analyze (pstr ".py") (.ok (pstr "x = eval(s)")) (.ok (.otherNode 1 [])) none :=
  claim_C7_deterministic (pstr ".py") _ _ _ _ rfl rfl

-- The split/join round trip used by the fixer theorems.

theorem splitNl_ne_nil (s : PStr) : splitNl s ≠ [] := by
  cases s with
  | nil => simp [splitNl]
  | cons c cs =>
    simp only [splitNl]
    split
    · simp
    · split <;> simp

theorem joinNl_splitNl (s : PStr) : joinNl (splitNl s) = s := by
  induction s with
  | nil => rfl
  | cons c cs ih =>
    simp only [splitNl]
    by_cases hc : c = '\n'
    · rw [if_pos hc, hc]
      obtain ⟨h, t, ht⟩ : ∃ h t, splitNl cs = h :: t := by
        cases hs : splitNl cs with
        | nil => exact absurd hs (splitNl_ne_nil cs)
        | cons h t => exact ⟨h, t, rfl⟩
      rw [ht] at ih ⊢
      simpa [joinNl] using ih
    · rw [if_neg hc]
      obtain ⟨h, t, ht⟩ : ∃ h t, splitNl cs = h :: t := by
        cases hs : splitNl cs with
        | nil => exact absurd hs (splitNl_ne_nil cs)
        | cons h t => exact ⟨h, t, rfl⟩
      rw [ht] at ih ⊢
      simpa [joinNl] using ih

theorem applyIssue_out_of_range (content : PStr) (lines : List PStr) (issue : Issue)
    (h : issue.line < 1 ∨ issue.line > lines.length) :
    applyIssue content lines issue = lines := by
  unfold applyIssue
  rw [if_pos h]

/-- C2: evaluating `_pattern_based_fix` at a file whose issue list holds an
    insertion-type issue above a line-scoped issue — the ascending order
    the analyzer produces — shows the loop applies issues in list order
    against the already-shifted line array, not bottom-up by original line
    number: the `DatabaseIssue` insertion after line 1 shifts the flagged
    comparison from line 2 to line 3, so the `ComparisonBug` rewrite for
    "line 2" runs on the freshly inserted `conn.commit()` line, matches
    nothing, and the defective `x == None` survives.  A bottom-up
    implementation (the claim) would have produced the third string. -/
theorem claim_C2_not_bottom_up :
    pattern_based_fix (pstr "cursor.execute(query)\nx == None")
      [⟨pstr "DatabaseIssue", pstr "Missing commit() after execute() - transaction may not persist", 1⟩,
       ⟨pstr "ComparisonBug", pstr "Use 'is None' instead of '== None'", 2⟩] =
      pstr "cursor.execute(query)\nconn.commit()  # Auto-added\nx == None" ∧
    pyIn (pstr "x == None")
      (pattern_based_fix (pstr "cursor.execute(query)\nx == None")
        [⟨pstr "DatabaseIssue", pstr "Missing commit() after execute() - transaction may not persist", 1⟩,
         ⟨pstr "ComparisonBug", pstr "Use 'is None' instead of '== None'", 2⟩]) = true ∧
    pattern_based_fix (pstr "cursor.execute(query)\nx == None")
      [⟨pstr "DatabaseIssue", pstr "Missing commit() after execute() - transaction may not persist", 1⟩,
       ⟨pstr "ComparisonBug", pstr "Use 'is None' instead of '== None'", 2⟩] ≠
      pstr "cursor.execute(query)\nconn.commit()  # Auto-added\nx is None" := by
  decide

/-- C9, counterexample: a file-level issue (line 0) can still change the
    content — the one-time logging-import prepend fires on the issue's
    message before the per-line loop ever looks at line numbers — so "an
    out-of-range Issue leaves the content unchanged for it" is false as
    stated. -/
theorem claim_C9_counterexample :
    pattern_based_fix (pstr "x = 1") [⟨pstr "MissingLogging", pstr "add logging here", 0⟩] =
      pstr "import logging\n\nx = 1" ∧
    pattern_based_fix (pstr "x = 1") [⟨pstr "MissingLogging", pstr "add logging here", 0⟩] ≠
      pstr "x = 1" := by
  decide

/-- C9, amended: provided the whole-document logging-import prepend does
    not fire (no issue message mentions logging, or the content already
    imports it), an issue list all of whose line numbers are out of range
    — below 1, which is where file-level issues such as `FileError` and
    `AnalysisError` live, or above the line count — is skipped entirely by
    the guard at `src/fixer.py` lines 77-78: the content comes back
    unchanged and the loop never indexes the line array out of bounds. -/
theorem claim_C9_out_of_range_skipped (content : PStr) (issues : List Issue)
    (hlog : (issues.any fun i => pyIn (pstr "logging") (pyLower i.message)) = false
            ∨ pyIn (pstr "import logging") content = true)
    (hrange : ∀ i ∈ issues, i.line < 1 ∨ i.line > (splitNl content).length) :
    pattern_based_fix content issues = content := by
  have hguard :
      ((issues.any fun i => pyIn (pstr "logging") (pyLower i.message)) &&
        !pyIn (pstr "import logging") content) = false := by
    rcases hlog with h | h <;> simp [h]
  simp only [pattern_based_fix, hguard, Bool.false_eq_true, if_false]
  have hfold : ∀ is : List Issue,
      (∀ i ∈ is, i.line < 1 ∨ i.line > (splitNl content).length) →
      is.foldl (applyIssue content) (splitNl content) = splitNl content := by
    intro is
    induction is with
    | nil => intro _; rfl
    | cons i is ih =>
      intro hr
      simp only [List.foldl_cons]
      rw [applyIssue_out_of_range content _ i (hr i (List.mem_cons_self i is))]
      exact ih (fun j hj => hr j (List.mem_cons_of_mem i hj))
  rw [hfold issues hrange, joinNl_splitNl]

/-- C9 witness: a concrete file-level `FileError` issue (line 0) and an
    issue past the end of the file leave a concrete file untouched. -/
theorem claim_C9_out_of_range_skipped_witness :
    pattern_based_fix (pstr "x = 1")
      [⟨pstr "FileError", pstr "cannot read", 0⟩,
       ⟨pstr "StyleIssue", pstr "Trailing whitespace", 7⟩] = pstr "x = 1" := by
  apply claim_C9_out_of_range_skipped
  · left
    decide
  · intro i hi
    simp only [List.mem_cons, List.not_mem_nil, or_false] at hi
    rcases hi with rfl | rfl
    · left
      decide
    · right
      decide

-- List-access helpers shared by the fixer proofs.

theorem lt_length_of_get? (L : List PStr) (n : Nat) (a : PStr) (h : L.get? n = some a) :
    n < L.length := by
  by_contra hc
  push_neg at hc
  rw [List.get?_eq_none.2 hc] at h
  exact Option.noConfusion h

theorem getD_of_get? (L : List PStr) (n : Nat) (a d : PStr) (h : L.get? n = some a) :
    L.getD n d = a := by
  rw [List.getD_eq_getElem?_getD, ← List.get?_eq_getElem?, h]
  rfl

theorem set_of_get? (L : List PStr) (n : Nat) (a : PStr) (h : L.get? n = some a) :
    L.set n a = L := by
  induction L generalizing n with
  | nil => simp at h
  | cons x xs ih =>
    cases n with
    | zero =>
      simp only [List.get?] at h
      injection h with h
      rw [List.set, h]
    | succ n =>
      simp only [List.get?] at h
      rw [List.set, ih n h]

-- Substring-containment basics.

theorem pyIn_of_isPrefixOf (pat x : PStr) (h : pat.isPrefixOf x = true) :
    pyIn pat x = true := by
  cases x with
  | nil =>
    cases pat with
    | nil => rfl
    | cons p ps => simp [List.isPrefixOf] at h
  | cons c cs => simp [pyIn, h]

theorem pyIn_nil_left (x : PStr) : pyIn [] x = true := by
  cases x with
  | nil => rfl
  | cons c cs => simp [pyIn, List.isPrefixOf]

theorem pyIn_cons_of (pat x : PStr) (c : Char) (h : pyIn pat x = true) :
    pyIn pat (c :: x) = true := by
  simp [pyIn, h]

theorem pyIn_self_append (pat r : PStr) : pyIn pat (pat ++ r) = true := by
  cases pat with
  | nil => exact pyIn_nil_left r
  | cons p ps =>
    refine pyIn_of_isPrefixOf _ _ ?_
    exact List.isPrefixOf_iff_prefix.2 (List.prefix_append _ _)

theorem pyIn_drop_le (pat s : PStr) (n : Nat) (h : pyIn pat (s.drop n) = true) :
    pyIn pat s = true := by
  induction s generalizing n with
  | nil => simpa using h
  | cons c cs ih =>
    cases n with
    | zero => simpa using h
    | succ n => exact pyIn_cons_of _ _ _ (ih n h)

theorem pyIn_drop_of_not (pat s : PStr) (n : Nat) (h : pyIn pat s = false) :
    pyIn pat (s.drop n) = false := by
  by_contra hc
  rw [Bool.not_eq_false] at hc
  rw [pyIn_drop_le pat s n hc] at h
  exact Bool.noConfusion h

theorem pyIn_prefix_mono (pat ext x : PStr) (h : pyIn (pat ++ ext) x = true) :
    pyIn pat x = true := by
  induction x with
  | nil =>
    simp only [pyIn, List.isEmpty_iff, List.append_eq_nil] at h
    rw [h.1]
    exact pyIn_nil_left []
  | cons c cs ih =>
    simp only [pyIn, Bool.or_eq_true] at h ⊢
    rcases h with h | h
    · left
      exact List.isPrefixOf_iff_prefix.2
        ((List.prefix_append pat ext).trans (List.isPrefixOf_iff_prefix.1 h))
    · right
      exact ih h

theorem isPrefixOf_singleton (b d : Char) (t : PStr) :
    ([b] : PStr).isPrefixOf (d :: t) = (b == d) := by
  rw [List.isPrefixOf_cons₂, List.isPrefixOf_nil_left, Bool.and_true]

-- What the replacement of an occurrence can and cannot introduce.

theorem pyIn2_append (a b : Char) (u v : PStr)
    (hu : pyIn [a, b] u = false) (hv : pyIn [a, b] v = false)
    (hbound : u.getLast? ≠ some a ∨ v.head? ≠ some b) :
    pyIn [a, b] (u ++ v) = false := by
  induction u with
  | nil => simpa using hv
  | cons c u' ih =>
    have hu2 : ([a, b] : PStr).isPrefixOf (c :: u') = false ∧ pyIn [a, b] u' = false := by
      have := hu
      simp only [pyIn, Bool.or_eq_false_iff] at this
      exact this
    obtain ⟨hupre, hu'⟩ := hu2
    have hrec : pyIn [a, b] (u' ++ v) = false := by
      cases u' with
      | nil => simpa using hv
      | cons d u'' =>
        apply ih hu'
        rcases hbound with hb | hb
        · left
          rwa [List.getLast?_cons_cons] at hb
        · right
          exact hb
    have hpre : ([a, b] : PStr).isPrefixOf (c :: (u' ++ v)) = false := by
      by_cases hca : (a == c) = true
      · have h1 : ([b] : PStr).isPrefixOf u' = false := by
          rw [show (([a, b] : PStr).isPrefixOf (c :: u'))
              = ((a == c) && ([b] : PStr).isPrefixOf u') from rfl, hca, Bool.true_and] at hupre
          exact hupre
        rw [show (([a, b] : PStr).isPrefixOf (c :: (u' ++ v)))
            = ((a == c) && ([b] : PStr).isPrefixOf (u' ++ v)) from rfl, hca, Bool.true_and]
        cases u' with
        | cons d u'' =>
          rw [List.cons_append]
          rw [isPrefixOf_singleton] at h1
          rw [isPrefixOf_singleton]
          exact h1
        | nil =>
          rw [List.nil_append]
          rcases hbound with hb | hb
          · exfalso
            apply hb
            have hac : a = c := by simpa [beq_iff_eq] using hca
            rw [List.getLast?_singleton, hac]
          · cases v with
            | nil => rfl
            | cons e v' =>
              rw [isPrefixOf_singleton]
              simp only [List.head?] at hb
              have hne : b ≠ e := fun hbe => hb (by rw [hbe])
              simp [beq_iff_eq]
              intro hbe
              exact absurd hbe hne
      · rw [show (([a, b] : PStr).isPrefixOf (c :: (u' ++ v)))
            = ((a == c) && ([b] : PStr).isPrefixOf (u' ++ v)) from rfl]
        rw [Bool.not_eq_true] at hca
        rw [hca, Bool.false_and]
    rw [List.cons_append]
    simp only [pyIn, hpre, hrec, Bool.or_self, Bool.false_or]

theorem pyIn_new_pyReplace (s old new : PStr) :
    old ≠ [] → pyIn old s = true → pyIn new (pyReplace s old new) = true := by
  induction s, old, new using pyReplace.induct with
  | case1 old new =>
    intro hold h
    cases old with
    | nil => exact absurd rfl hold
    | cons p ps => simp [pyIn] at h
  | case2 old new c cs hpre ih =>
    intro hold h
    rw [pyReplace, if_pos hpre]
    exact pyIn_self_append new _
  | case3 old new c cs hpre ih =>
    intro hold h
    rw [pyReplace, if_neg hpre]
    have h' : (old.isPrefixOf (c :: cs) || pyIn old cs) = true := by
      simpa only [pyIn] using h
    have hcs : pyIn old cs = true := by
      rcases Bool.or_eq_true_iff.1 h' with hp | hp
      · exact absurd ⟨hold, hp⟩ hpre
      · exact hp
    exact pyIn_cons_of _ _ _ (ih hold hcs)

theorem pyIn_bangEq_pyReplace_aux (n : Nat) :
    ∀ s : PStr, s.length ≤ n → pyIn ['!', '='] s = false →
    pyIn ['!', '='] (pyReplace s (pstr "== None") (pstr "is None")) = false := by
  induction n with
  | zero =>
    intro s hs h
    have hnil : s = [] := List.length_eq_zero.1 (Nat.le_zero.1 hs)
    subst hnil
    rw [pyReplace]
    exact h
  | succ n ih =>
    intro s hs h
    cases s with
    | nil =>
      rw [pyReplace]
      exact h
    | cons c cs =>
      have hlen : cs.length ≤ n := by
        simp only [List.length_cons] at hs
        omega
      have hsplit : ([ '!', '='] : PStr).isPrefixOf (c :: cs) = false ∧
          pyIn ['!', '='] cs = false := by
        have := h
        simp only [pyIn, Bool.or_eq_false_iff] at this
        exact this
      obtain ⟨hupre, hcs⟩ := hsplit
      rw [pyReplace]
      by_cases hpre : (pstr "== None") ≠ [] ∧ (pstr "== None").isPrefixOf (c :: cs) = true
      · rw [if_pos hpre]
        have hR : pyIn ['!', '=']
            (pyReplace (cs.drop ((pstr "== None").length - 1)) (pstr "== None")
              (pstr "is None")) = false := by
          apply ih
          · calc (cs.drop ((pstr "== None").length - 1)).length ≤ cs.length := by simp
              _ ≤ n := hlen
          · exact pyIn_drop_of_not _ _ _ hcs
        apply pyIn2_append
        · decide
        · exact hR
        · left
          decide
      · rw [if_neg hpre]
        have hR' : pyIn ['!', '='] (pyReplace cs (pstr "== None") (pstr "is None")) = false :=
          ih cs hlen hcs
        have hgoalpre : ([ '!', '='] : PStr).isPrefixOf
            (c :: pyReplace cs (pstr "== None") (pstr "is None")) = false := by
          rw [List.isPrefixOf_cons₂]
          by_cases hc : ('!' == c) = true
          · rw [hc, Bool.true_and]
            rw [List.isPrefixOf_cons₂, hc, Bool.true_and] at hupre
            cases cs with
            | nil =>
              rw [pyReplace]
              rfl
            | cons d ds =>
              rw [isPrefixOf_singleton] at hupre
              rw [pyReplace, if_neg ?hcond]
              case hcond =>
                rintro ⟨-, hpp⟩
                rw [show (pstr "== None") = '=' :: (pstr "= None") from by decide] at hpp
                rw [List.isPrefixOf_cons₂] at hpp
                rw [hupre, Bool.false_and] at hpp
                exact Bool.noConfusion hpp
              rw [isPrefixOf_singleton]
              exact hupre
          · rw [Bool.not_eq_true] at hc
            rw [hc, Bool.false_and]
        simp only [pyIn, hgoalpre, hR', Bool.or_self, Bool.false_or]

theorem pyIn_bangEq_pyReplace (s : PStr) (h : pyIn ['!', '='] s = false) :
    pyIn ['!', '='] (pyReplace s (pstr "== None") (pstr "is None")) = false :=
  pyIn_bangEq_pyReplace_aux s.length s (Nat.le_refl _) h

theorem mem_pyReplace (s old new : PStr) (c : Char) :
    c ∈ pyReplace s old new → c ∈ s ∨ c ∈ new := by
  induction s, old, new using pyReplace.induct with
  | case1 old new =>
    intro h
    rw [pyReplace] at h
    simp at h
  | case2 old new x cs hpre ih =>
    intro h
    rw [pyReplace, if_pos hpre] at h
    rcases List.mem_append.1 h with h | h
    · exact Or.inr h
    · rcases ih h with h | h
      · exact Or.inl (List.mem_cons_of_mem x (List.mem_of_mem_drop h))
      · exact Or.inr h
  | case3 old new x cs hpre ih =>
    intro h
    rw [pyReplace, if_neg hpre] at h
    rcases List.mem_cons.1 h with rfl | h
    · exact Or.inl (List.mem_cons_self _ _)
    · rcases ih h with h | h
      · exact Or.inl (List.mem_cons_of_mem x h)
      · exact Or.inr h

-- The inverse round trip: splitting a joined line array recovers it when
-- no line contains a newline.

theorem splitNl_no_newline (s : PStr) : ∀ l ∈ splitNl s, '\n' ∉ l := by
  induction s with
  | nil =>
    intro l hl
    simp [splitNl] at hl
    simp [hl]
  | cons c cs ih =>
    intro l hl
    simp only [splitNl] at hl
    by_cases hc : c = '\n'
    · rw [if_pos hc] at hl
      rcases List.mem_cons.1 hl with rfl | hl
      · simp
      · exact ih l hl
    · rw [if_neg hc] at hl
      cases hs : splitNl cs with
      | nil => exact absurd hs (splitNl_ne_nil cs)
      | cons h t =>
        rw [hs] at hl
        rcases List.mem_cons.1 hl with rfl | hl
        · intro hmem
          rcases List.mem_cons.1 hmem with rfl | hmem
          · exact hc rfl
          · exact ih h (hs ▸ List.mem_cons_self h t) hmem
        · exact ih l (hs ▸ List.mem_cons_of_mem h hl)

theorem splitNl_of_no_newline (l : PStr) (h : '\n' ∉ l) : splitNl l = [l] := by
  induction l with
  | nil => rfl
  | cons c cs ih =>
    have hc : ¬ c = '\n' := fun hcc => h (hcc ▸ List.mem_cons_self c cs)
    have hcs : '\n' ∉ cs := fun hmem => h (List.mem_cons_of_mem c hmem)
    simp only [splitNl, if_neg hc, ih hcs]

theorem splitNl_append_newline (l r : PStr) (h : '\n' ∉ l) :
    splitNl (l ++ '\n' :: r) = l :: splitNl r := by
  induction l with
  | nil => simp [splitNl]
  | cons c cs ih =>
    have hc : ¬ c = '\n' := fun hcc => h (hcc ▸ List.mem_cons_self c cs)
    have hcs : '\n' ∉ cs := fun hmem => h (List.mem_cons_of_mem c hmem)
    simp only [List.cons_append, splitNl, if_neg hc, List.append_eq]
    rw [ih hcs]

theorem splitNl_joinNl (L : List PStr) (hL : L ≠ []) (h : ∀ l ∈ L, '\n' ∉ l) :
    splitNl (joinNl L) = L := by
  induction L with
  | nil => exact absurd rfl hL
  | cons l ls ih =>
    cases ls with
    | nil =>
      simp only [joinNl, List.flatMap_nil, List.append_nil]
      exact splitNl_of_no_newline l (h l (List.mem_cons_self l []))
    | cons m ms =>
      have hjoin : joinNl (l :: m :: ms) = l ++ '\n' :: joinNl (m :: ms) := by
        simp [joinNl]
      rw [hjoin, splitNl_append_newline l _ (h l (List.mem_cons_self _ _)),
        ih (by simp) (fun x hx => h x (List.mem_cons_of_mem l hx))]

-- Locating issues inside the lexical battery.

theorem patternLoop_mem_intro (content : PStr) (L : List PStr) (k j : Nat) (l : PStr)
    (hget : L.get? j = some l) (iss : Issue) (hmem : iss ∈ lineChecks content (k + j) l) :
    iss ∈ patternLoop content k L := by
  induction L generalizing k j with
  | nil => simp at hget
  | cons x xs ih =>
    cases j with
    | zero =>
      simp only [List.get?] at hget
      injection hget with hget
      subst hget
      simp only [patternLoop, List.mem_append]
      left
      simpa using hmem
    | succ j =>
      simp only [List.get?] at hget
      simp only [patternLoop, List.mem_append]
      right
      exact ih (k + 1) j hget (by rwa [show k + 1 + j = k + (j + 1) by omega])

theorem patternLoop_mem_elim (content : PStr) (L : List PStr) (k : Nat) (iss : Issue)
    (h : iss ∈ patternLoop content k L) :
    ∃ j l, L.get? j = some l ∧ iss ∈ lineChecks content (k + j) l := by
  induction L generalizing k with
  | nil => simp [patternLoop] at h
  | cons x xs ih =>
    simp only [patternLoop, List.mem_append] at h
    rcases h with h | h
    · exact ⟨0, x, rfl, by simpa using h⟩
    · obtain ⟨j, l, hget, hmem⟩ := ih (k + 1) h
      exact ⟨j + 1, l, hget, by rwa [show k + (j + 1) = k + 1 + j by omega]⟩

theorem lineChecks_line (content : PStr) (m : Nat) (l : PStr) (iss : Issue)
    (hmem : iss ∈ lineChecks content m l) : iss.line = m := by
  unfold lineChecks at hmem
  split at hmem
  · simp at hmem
  · obtain ⟨⟨b, iss'⟩, hmem', hf⟩ := List.mem_filterMap.1 hmem
    have hb : b = true := by
      cases b with
      | false => simp at hf
      | true => rfl
    subst hb
    simp only [if_true] at hf
    injection hf with hf
    subst hf
    simp only [pythonLineRules, List.mem_cons, List.not_mem_nil, or_false,
      Prod.mk.injEq] at hmem'
    rcases hmem' with ⟨-, h⟩ | ⟨-, h⟩ | ⟨-, h⟩ | ⟨-, h⟩ | ⟨-, h⟩ | ⟨-, h⟩ | ⟨-, h⟩ |
      ⟨-, h⟩ | ⟨-, h⟩ | ⟨-, h⟩ | ⟨-, h⟩ | ⟨-, h⟩ | ⟨-, h⟩ | ⟨-, h⟩ | ⟨-, h⟩ | ⟨-, h⟩ |
      ⟨-, h⟩ | ⟨-, h⟩ | ⟨-, h⟩ | ⟨-, h⟩ | ⟨-, h⟩ | ⟨-, h⟩ | ⟨-, h⟩ | ⟨-, h⟩ | ⟨-, h⟩ |
      ⟨-, h⟩ | ⟨-, h⟩ | ⟨-, h⟩ <;>
    · rw [h]

theorem lineChecks_CB_char (content : PStr) (m : Nat) (l : PStr) (iss : Issue)
    (hmem : iss ∈ lineChecks content m l)
    (hty : iss.type = pstr "ComparisonBug") :
    (pyIn (pstr "== None") l = true ∧ pyIn (pstr "is None") l = false) ∨
    (pyIn (pstr "!= None") l = true ∧ pyIn (pstr "is not None") l = false) := by
  unfold lineChecks at hmem
  split at hmem
  · simp at hmem
  · obtain ⟨⟨b, iss'⟩, hmem', hf⟩ := List.mem_filterMap.1 hmem
    have hb : b = true := by
      cases b with
      | false => simp at hf
      | true => rfl
    subst hb
    simp only [if_true] at hf
    injection hf with hf
    subst hf
    simp only [pythonLineRules, List.mem_cons, List.not_mem_nil, or_false,
      Prod.mk.injEq] at hmem'
    rcases hmem' with ⟨hc, h⟩ | ⟨hc, h⟩ | ⟨hc, h⟩ | ⟨hc, h⟩ | ⟨hc, h⟩ | ⟨hc, h⟩ | ⟨hc, h⟩ | ⟨hc, h⟩ | ⟨hc, h⟩ | ⟨hc, h⟩ | ⟨hc, h⟩ | ⟨hc, h⟩ | ⟨hc, h⟩ | ⟨hc, h⟩ | ⟨hc, h⟩ | ⟨hc, h⟩ | ⟨hc, h⟩ | ⟨hc, h⟩ | ⟨hc, h⟩ | ⟨hc, h⟩ | ⟨hc, h⟩ | ⟨hc, h⟩ | ⟨hc, h⟩ | ⟨hc, h⟩ | ⟨hc, h⟩ | ⟨hc, h⟩ | ⟨hc, h⟩ | ⟨hc, h⟩
    all_goals first
      | (rw [h] at hty; simp [pstr] at hty; done)
      | (left
         have hcond := hc.symm
         simp only [Bool.and_eq_true, Bool.not_eq_true'] at hcond
         exact ⟨hcond.1.1, hcond.1.2⟩)
      | (right
         have hcond := hc.symm
         simp only [Bool.and_eq_true, Bool.not_eq_true'] at hcond
         exact ⟨hcond.1.1, hcond.1.2⟩)

theorem lineChecks_mem_eqNone (content : PStr) (i : Nat) (line : PStr)
    (hhash : pyStartswith (pstr "#") (pyStrip line) = false)
    (heq : pyIn (pstr "== None") line = true)
    (his : pyIn (pstr "is None") line = false)
    (hcmt : pyIn (pstr "# ") (pyStrip line) = false) :
    (⟨pstr "ComparisonBug", pstr "Use 'is None' instead of '== None'", i⟩ : Issue)
      ∈ lineChecks content i line := by
  unfold lineChecks
  rw [if_neg (by simp [hhash])]
  apply List.mem_filterMap.2
  refine ⟨(pyIn (pstr "== None") line && !pyIn (pstr "is None") line &&
      !pyIn (pstr "# ") (pyStrip line),
    (⟨pstr "ComparisonBug", pstr "Use 'is None' instead of '== None'", i⟩ : Issue)), ?_, ?_⟩
  · simp only [pythonLineRules, List.mem_cons]
    exact Or.inr (Or.inr (Or.inr (Or.inr (Or.inr (Or.inr (Or.inr (Or.inr (Or.inr (Or.inr (Or.inr (Or.inr (Or.inr (Or.inr (Or.inr (Or.inr (Or.inr (Or.inr (Or.inl trivial))))))))))))))))))
  · simp [heq, his, hcmt]

/-- The fixer's action on the flagged line: for a `ComparisonBug` issue at
    an in-range line containing `== None` and no `is None`, the loop body
    replaces every `== None` on that line with `is None` and stores the
    line back (the write-back is the identity when the replacement is). -/
theorem applyIssue_cb_eqNone (content : PStr) (lines : List PStr) (i : Nat) (line : PStr)
    (hget : lines.get? (i - 1) = some line) (hi : 1 ≤ i) (hile : i ≤ lines.length)
    (heq : pyIn (pstr "== None") line = true)
    (his : pyIn (pstr "is None") line = false) :
    applyIssue content lines
      ⟨pstr "ComparisonBug", pstr "Use 'is None' instead of '== None'", i⟩ =
      lines.set (i - 1) (pyReplace line (pstr "== None") (pstr "is None")) := by
  unfold applyIssue
  dsimp only
  rw [if_neg ?hg]
  case hg =>
    simp only [not_or, not_lt, gt_iff_lt]
    omega
  rw [getD_of_get? _ _ _ _ hget]
  rw [if_pos (rfl : (pstr "ComparisonBug") = pstr "ComparisonBug")]
  rw [heq, his]
  simp only [Bool.not_false, Bool.and_self, if_true]
  by_cases hch : pyReplace line (pstr "== None") (pstr "is None") = line
  · rw [if_neg (by simp [hch])]
    rw [hch, set_of_get? _ _ _ hget]
  · rw [if_pos (by simp [hch])]

/-- C5: for every syntactically valid Python file whose `i`-th line holds
    an equality-with-None comparison — it contains `== None`, no `is None`,
    no inequality operator, and is not a comment — `analyze` reports a
    `ComparisonBug` at line `i`; the pattern fixer run on that issue
    rewrites exactly that line, replacing `== None` by the identity form
    `is None`; and re-analyzing the fixed content reports zero
    `ComparisonBug` issues at that line.  `t` and `t'` are the parse trees
    of the original and the fixed content (the syntax-tree layer never
    flags an `is`-comparison, which the hypothesis on `t'` states for the
    supplied tree; the lexical layer is fully verified). -/
theorem claim_C5_none_fix_idempotent (content : PStr) (t t' : PyNode) (i : Nat) (line : PStr)
    (hline : (splitNl content).get? (i - 1) = some line)
    (hi : 1 ≤ i)
    (heq : pyIn (pstr "== None") line = true)
    (his : pyIn (pstr "is None") line = false)
    (hcmt : pyIn (pstr "# ") (pyStrip line) = false)
    (hhash : pyStartswith (pstr "#") (pyStrip line) = false)
    (hne : pyIn (pstr "!=") line = false)
    (hast : ∀ iss ∈ analyze_ast t', iss.type = pstr "ComparisonBug" → iss.line ≠ i) :
    ((⟨pstr "ComparisonBug", pstr "Use 'is None' instead of '== None'", i⟩ : Issue)
        ∈ analyze_python (.ok t) content) ∧
    (pattern_based_fix content
        [⟨pstr "ComparisonBug", pstr "Use 'is None' instead of '== None'", i⟩] =
      joinNl ((splitNl content).set (i - 1)
        (pyReplace line (pstr "== None") (pstr "is None")))) ∧
    ((analyze_python (.ok t')
        (pattern_based_fix content
          [⟨pstr "ComparisonBug", pstr "Use 'is None' instead of '== None'", i⟩])).countP
      (fun iss => decide (iss.type = pstr "ComparisonBug" ∧ iss.line = i)) = 0) := by
  have hlt : i - 1 < (splitNl content).length := lt_length_of_get? _ _ _ hline
  have hile : i ≤ (splitNl content).length := by omega
  have hfix : pattern_based_fix content
      [⟨pstr "ComparisonBug", pstr "Use 'is None' instead of '== None'", i⟩] =
      joinNl ((splitNl content).set (i - 1)
        (pyReplace line (pstr "== None") (pstr "is None"))) := by
    unfold pattern_based_fix
    have h1 : pyIn (pstr "logging")
        (pyLower (pstr "Use 'is None' instead of '== None'")) = false := by decide
    simp only [List.any_cons, List.any_nil, Bool.or_false, h1, Bool.false_and,
      Bool.false_eq_true, if_false, List.foldl_cons, List.foldl_nil]
    rw [applyIssue_cb_eqNone content _ i line hline hi hile heq his]
  refine ⟨?_, hfix, ?_⟩
  · show _ ∈ analyze_ast t ++ patternLoop content 1 (splitNl content)
    apply List.mem_append_right
    apply patternLoop_mem_intro content _ 1 (i - 1) line hline
    rw [show 1 + (i - 1) = i by omega]
    exact lineChecks_mem_eqNone content i line hhash heq his hcmt
  · rw [hfix]
    set newLine := pyReplace line (pstr "== None") (pstr "is None") with hnew
    set lines' := (splitNl content).set (i - 1) newLine with hlines'
    have hnn : ∀ l ∈ lines', '\n' ∉ l := by
      intro l hl
      rcases List.mem_or_eq_of_mem_set hl with hl | rfl
      · exact splitNl_no_newline content l hl
      · intro hmem
        rcases mem_pyReplace _ _ _ _ hmem with hmem | hmem
        · exact splitNl_no_newline content line (List.get?_mem hline) hmem
        · exact absurd hmem (by decide)
    have hlvne : lines' ≠ [] := by
      intro h0
      have := congrArg List.length h0
      simp only [hlines', List.length_set, List.length_nil] at this
      omega
    have hsplit' : splitNl (joinNl lines') = lines' := splitNl_joinNl _ hlvne hnn
    show ((analyze_ast t' ++ patternLoop (joinNl lines') 1 (splitNl (joinNl lines'))).countP _) = 0
    rw [List.countP_append, hsplit']
    have hz1 : (analyze_ast t').countP
        (fun iss => decide (iss.type = pstr "ComparisonBug" ∧ iss.line = i)) = 0 := by
      apply List.countP_eq_zero.2
      intro iss hiss
      simp only [decide_eq_true_eq, not_and]
      intro hty hl
      exact hast iss hiss hty hl
    have hz2 : (patternLoop (joinNl lines') 1 lines').countP
        (fun iss => decide (iss.type = pstr "ComparisonBug" ∧ iss.line = i)) = 0 := by
      apply List.countP_eq_zero.2
      intro iss hiss
      simp only [decide_eq_true_eq, not_and]
      intro hty hl
      obtain ⟨j, l, hgetj, hmemj⟩ := patternLoop_mem_elim _ _ _ _ hiss
      have hlj : iss.line = 1 + j := lineChecks_line _ _ _ _ hmemj
      have hji : j = i - 1 := by omega
      subst hji
      have hgset : lines'.get? (i - 1) = some newLine := by
        rw [hlines', List.get?_eq_getElem?]
        simp [List.getElem?_set_self hlt]
      rw [hgset] at hgetj
      injection hgetj with hgetj
      subst hgetj
      rcases lineChecks_CB_char _ _ _ _ hmemj hty with ⟨h1, h2⟩ | ⟨h1, h2⟩
      · have hpres : pyIn (pstr "is None") newLine = true :=
          pyIn_new_pyReplace _ _ _ (by decide) heq
        rw [hpres] at h2
        exact Bool.noConfusion h2
      · have hb : pyIn (pstr "!=") newLine = true := by
          apply pyIn_prefix_mono (pstr "!=") (pstr " None")
          rw [show (pstr "!=") ++ (pstr " None") = pstr "!= None" from by decide]
          exact h1
        have hcontra : pyIn ['!', '='] newLine = false := by
          apply pyIn_bangEq_pyReplace
          rw [show (['!', '='] : PStr) = pstr "!=" from by decide]
          exact hne
        rw [show (['!', '='] : PStr) = pstr "!=" from by decide, hb] at hcontra
        exact Bool.noConfusion hcontra
    rw [hz1, hz2]

/-- C5 witness: the spec's Scenario A, on the concrete file
    `if x == None:` / `    y = 1` with its actual parse trees (an `Eq`
    comparison against the `None` constant before the fix, an `Is`
    comparison after). -/
theorem claim_C5_none_fix_idempotent_witness :
    ((⟨pstr "ComparisonBug", pstr "Use 'is None' instead of '== None'", 1⟩ : Issue)
        ∈ analyze_python
          (.ok (.otherNode 1 [.otherNode 1 [.compare 1 [(CmpOp.eqOp, PyConst.noneConst)] [],
            .otherNode 2 []]]))
          (pstr "if x == None:\n    y = 1")) ∧
    (pattern_based_fix (pstr "if x == None:\n    y = 1")
        [⟨pstr "ComparisonBug", pstr "Use 'is None' instead of '== None'", 1⟩] =
      joinNl ((splitNl (pstr "if x == None:\n    y = 1")).set 0
        (pyReplace (pstr "if x == None:") (pstr "== None") (pstr "is None")))) ∧
    ((analyze_python
        (.ok (.otherNode 1 [.otherNode 1 [.compare 1 [(CmpOp.isOp, PyConst.noneConst)] [],
          .otherNode 2 []]]))
        (pattern_based_fix (pstr "if x == None:\n    y = 1")
          [⟨pstr "ComparisonBug", pstr "Use 'is None' instead of '== None'", 1⟩])).countP
      (fun iss => decide (iss.type = pstr "ComparisonBug" ∧ iss.line = 1)) = 0) :=
  claim_C5_none_fix_idempotent (pstr "if x == None:\n    y = 1")
    (.otherNode 1 [.otherNode 1 [.compare 1 [(CmpOp.eqOp, PyConst.noneConst)] [],
      .otherNode 2 []]])
    (.otherNode 1 [.otherNode 1 [.compare 1 [(CmpOp.isOp, PyConst.noneConst)] [],
      .otherNode 2 []]])
    1 (pstr "if x == None:")
    (by decide) (by decide) (by decide) (by decide) (by decide) (by decide) (by decide)
    (by decide)
